import Mathlib

/-!
Verification of the RomM2SteamDeck download/extraction orchestration core.

This file gives a shallow embedding, in Lean 4, of the core operations of the
repository (src/app.py, src/classes/RommAPIHelper.py): starting a transfer,
cancelling it, streaming progress, extracting archives, deleting a download,
and reconciling download records with the filesystem.  Effectful boundaries
(HTTP streaming, the filesystem, subprocess invocations) are modelled as
explicit inputs; the pure control flow is translated statement by statement
from the Python source.
-/

set_option maxRecDepth 4000

/-! ## String helpers mirroring the Python primitives used by the source -/

/-- Python `str.lower()` restricted to the characters that occur in filenames:
lower-cases each character. -/
def pyLower (s : String) : String :=
  (s.toList.map Char.toLower).asString

/-- Python `str.strip()` with no argument: removes leading and trailing
whitespace. -/
def pyStrip (s : String) : String :=
  (((s.toList.dropWhile (fun c => c.isWhitespace)).reverse.dropWhile
      (fun c => c.isWhitespace)).reverse).asString

/-- Python `str.endswith(suffix)`. -/
def pyEndsWith (s suffix : String) : Bool :=
  suffix.toList.isSuffixOf s.toList

/-- Whether a string begins with the path separator, as used by
`os.path.join` to detect absolute second components. -/
def headIsSlash (b : String) : Bool :=
  match b.toList with
  | c :: _ => c == '/'
  | [] => false

/-- Python `os.path.join(a, b)` for POSIX paths as the source uses it: an absolute
second component replaces the first, a trailing separator on `a` is not
doubled. -/
def osPathJoin (a b : String) : String :=
  if headIsSlash b then b
  else if a == "" then b
  else if pyEndsWith a "/" then a ++ b
  else a ++ "/" ++ b

/-- Python `os.path.splitext(s)[0]`: drops the extension starting at the last dot,
provided some non-dot character precedes that dot (leading dots are part of
the name, as in Python). -/
def splitextBase (s : String) : String :=
  let cs := s.toList
  let dotIdxs := (List.range cs.length).filter (fun i => cs.getD i ' ' == '.')
  match dotIdxs.getLast? with
  | none => s
  | some i =>
    if (List.range i).any (fun j => cs.getD j ' ' != '.') then (cs.take i).asString else s

/-! ## Data model -/

/-- A catalog item as returned by the remote API: `id`, `fs_name`, `name`,
`platform_id`, `fs_size_bytes` (the fields `api_download_rom` reads). -/
structure Rom where
  id : Nat
  fsName : String
  name : String
  platformId : Nat
  fsSizeBytes : Nat
deriving DecidableEq

/-- Per-platform configuration as returned by `get_platform_config`:
`rom_folder`, `auto_extract`, `install_paths`. -/
structure PlatformConfig where
  romFolder : String
  autoExtract : Bool
  installPaths : List String
deriving DecidableEq

/-- One row of the `downloads` table (`rom_id` is UNIQUE in the schema). -/
structure DownloadRecord where
  romId : Nat
  romName : String
  filename : String
  filePath : String
  platformId : Nat
  fileSize : Nat
deriving DecidableEq

/-! ## StartTransfer (`api_download_rom`, src/app.py lines 858-936) -/

/-- One value of the `download_progress` dictionary (status plus the numeric
and text fields the source stores alongside it). -/
structure ProgressEntry where
  status : String
  progress : Nat := 0
  downloaded : Nat := 0
  total : Nat := 0
  filename : String := ""
  romName : String := ""
  message : String := ""
deriving DecidableEq

/-- The background unit of work `api_download_rom` launches after
validation. -/
inductive BackgroundJob
  | standard
  | extraction (installPath stagingPath : String)
deriving DecidableEq

/-- The synchronous HTTP result of `api_download_rom`. -/
inductive StartResult
  | notFound
  | configError (httpCode : Nat) (msg : String)
  | started (job : BackgroundJob)
deriving DecidableEq

/-- The two cross-request mutable dictionaries: `download_progress` and
`download_cancel_events`, both keyed by rom id. -/
structure AppState where
  downloadProgress : List (Nat × ProgressEntry)
  downloadCancelEvents : List Nat
deriving DecidableEq

/-- Assignment `download_progress[rom_id] = entry` (dictionary assignment replaces any
earlier entry for the same key). -/
def setProgressEntry (m : List (Nat × ProgressEntry)) (romId : Nat) (e : ProgressEntry) :
    List (Nat × ProgressEntry) :=
  m.filter (fun p => p.1 != romId) ++ [(romId, e)]

/-- Assignment `download_cancel_events[rom_id] = threading.Event()`. -/
def registerCancelEvent (events : List Nat) (romId : Nat) : List Nat :=
  events.filter (fun i => i != romId) ++ [romId]

/-- Operation `api_download_rom`: looks up the rom, validates the platform
configuration, and only then registers progress state, a cancel event and a
background job.  The rom lookup result is a parameter (it is an HTTP call in
the source). -/
def api_download_rom (st : AppState) (romLookup : Option Rom) (cfg : PlatformConfig)
    (selectedInstallPath stagingPathCfg : String) : StartResult × AppState :=
  match romLookup with
  | none => (.notFound, st)
  | some rom =>
    if cfg.autoExtract then
      if cfg.installPaths.isEmpty then
        (.configError 400
          "Install paths not configured for this platform. Please set them in Settings.", st)
      else
        let installPath :=
          if selectedInstallPath != "" then selectedInstallPath else cfg.installPaths.headD ""
        let st' : AppState :=
          { downloadProgress := setProgressEntry st.downloadProgress rom.id
              { status := "starting", progress := 0, downloaded := 0, total := rom.fsSizeBytes,
                filename := rom.fsName, romName := rom.name },
            downloadCancelEvents := registerCancelEvent st.downloadCancelEvents rom.id }
        (.started (.extraction installPath stagingPathCfg), st')
    else
      if pyStrip cfg.romFolder == "" then
        (.configError 400 "Platform folder not configured. Please set it in Settings.", st)
      else
        let st' : AppState :=
          { downloadProgress := setProgressEntry st.downloadProgress rom.id
              { status := "starting", progress := 0, downloaded := 0, total := rom.fsSizeBytes,
                filename := rom.fsName, romName := rom.name },
            downloadCancelEvents := registerCancelEvent st.downloadCancelEvents rom.id }
        (.started .standard, st')

/-! ## DeleteDownload (`api_delete_download`, src/app.py lines 721-760) -/

/-- The filesystem facts `api_delete_download` consults: whether the recorded
path exists, whether it is a directory (which only selects `shutil.rmtree`
versus `os.remove`), and whether the deletion call raises (with which
message). -/
structure DeleteFs where
  pathExists : String → Bool
  isDirPath : String → Bool
  rmFails : String → Option String

/-- The JSON result of `api_delete_download`. -/
inductive DeleteResult
  | notFound
  | ok (message : String) (deletedFiles : List String) (errors : List String)
deriving DecidableEq

/-- Operation `api_delete_download`: look up the download record; if the recorded path
exists attempt to delete it (directory or file — both are covered by the
`rmFails` oracle), collecting a failure message instead of aborting; then
always delete the database row and report success. -/
def api_delete_download (downloads : List DownloadRecord) (fs : DeleteFs) (romId : Nat) :
    DeleteResult × List DownloadRecord :=
  match downloads.find? (fun r => r.romId == romId) with
  | none => (.notFound, downloads)
  | some info =>
    let filePath := info.filePath
    let deletedAndErrors : List String × List String :=
      if filePath != "" && fs.pathExists filePath then
        match fs.rmFails filePath with
        | none => ([filePath], [])
        | some e => ([], ["Failed to delete " ++ filePath ++ ": " ++ e])
      else ([], [])
    (.ok ("Deleted " ++ info.romName) deletedAndErrors.1 deletedAndErrors.2,
     downloads.filter (fun r => r.romId != romId))

/-! ## Seven-zip extraction fallback loop
(src/app.py lines 1309-1342 in `download_with_extraction_async` and
lines 1111-1144 in `download_windows_game_async`) -/

/-- Outcome of one `subprocess.run` attempt: the binary is absent
(`FileNotFoundError`), the binary ran with a return code and stderr, or some
other exception was raised. -/
inductive CmdOutcome
  | notFound
  | ran (returncode : Nat) (stderr : String)
  | raised (msg : String)
deriving DecidableEq

/-- The `for cmd in extraction_commands` loop, carrying the running
`extract_message`: stop at the first attempt with return code 0, keep the
last error message otherwise, skip missing binaries silently. -/
def run7zAttempts (installPath : String) (attempts : List CmdOutcome) (msg : String) :
    Bool × String :=
  match attempts with
  | [] => (false, msg)
  | .notFound :: rest => run7zAttempts installPath rest msg
  | .ran rc stderr :: rest =>
    if rc == 0 then (true, "Extracted to " ++ installPath)
    else run7zAttempts installPath rest ("Extraction failed: " ++ stderr)
  | .raised e :: rest => run7zAttempts installPath rest ("Extraction failed: " ++ e)

/-- The fallback message of `download_with_extraction_async` (src/app.py
line 1342), used only when the loop left `extract_message` empty. -/
def sevenZipMissingMsgUnified : String :=
  "7z not installed - file downloaded but not extracted"

/-- The fallback message of `download_windows_game_async` (src/app.py
line 1144), used whenever the loop did not succeed. -/
def sevenZipMissingMsgWindows : String :=
  "7z not installed - file downloaded but not extracted. Install 7-Zip (Windows/Linux/SteamOS) or unar (macOS: brew install unar)"

/-- The `.7z` handling in `download_with_extraction_async`: run the fallback
loop; if it failed and produced no message at all, report the
tool-not-installed message. -/
def extract7zUnified (installPath : String) (attempts : List CmdOutcome) : Bool × String :=
  let r := run7zAttempts installPath attempts ""
  if !r.1 && r.2 == "" then (r.1, sevenZipMissingMsgUnified) else r

/-- The `.7z` handling in `download_windows_game_async`: run the fallback loop;
on any failure overwrite the message with the install-advice message. -/
def extract7zWindows (installPath : String) (attempts : List CmdOutcome) : Bool × String :=
  let r := run7zAttempts installPath attempts ""
  if !r.1 then (false, sevenZipMissingMsgWindows) else r

/-- Whether a message is one of the two messages that advise installing an
extraction tool. -/
def advisesToolInstall (m : String) : Bool :=
  m == sevenZipMissingMsgUnified || m == sevenZipMissingMsgWindows

/-- Whether one tool attempt exited successfully (return code 0). -/
def isCmdSuccess : CmdOutcome → Bool
  | .ran rc _ => rc == 0
  | _ => false

/-! ## `RommAPIHelper.downloadRom` (src/classes/RommAPIHelper.py lines 154-210) -/

/-- The dictionary `downloadRom` returns.  The source never puts a
`cancelled` key into it; `cancelled` models `result.get("cancelled")` at the
call sites, which is therefore always falsy. -/
structure DlResult where
  skipped : Bool
  cancelled : Bool
  path : String
  filename : String
deriving DecidableEq

deriving instance DecidableEq for Except

/-- A run of `downloadRom`: its result (or raised exception message), the
bytes written to disk, and the `(downloaded, total, percent)` triples passed
to the progress callback. -/
structure DlRun where
  result : Except String DlResult
  bytesWritten : Nat
  progressCalls : List (Nat × Nat × Nat)
deriving DecidableEq

/-- The external facts one `downloadRom` call observes: HTTP status,
`content-length`, the content-disposition filename if any, whether the
destination file already exists, and the sizes of the streamed chunks. -/
structure DlWorld where
  httpStatus : Nat
  contentLength : Nat
  dispositionFilename : Option String
  destFileExists : Bool
  chunks : List Nat
deriving DecidableEq

/-- Operation `downloadRom`: on HTTP 200, resolve the filename (content-disposition
header, else the declared filename), and if the destination file already
exists return `skipped=True` without writing; otherwise write the chunks,
reporting progress when the total size is known (the Python percentage is
`int((downloaded/total)*100)`, modelled with natural division).  On any other
status raise.  Note the signature: there is no cancellation parameter and the
chunk loop checks no cancel signal. -/
def downloadRom (romFilename downloadPath : String) (w : DlWorld) : DlRun :=
  if w.httpStatus == 200 then
    let totalSize := w.contentLength
    let filename :=
      match w.dispositionFilename with
      | some f => f
      | none => romFilename
    let filePath := osPathJoin downloadPath filename
    if w.destFileExists then
      { result := .ok { skipped := true, cancelled := false, path := filePath, filename := filename },
        bytesWritten := 0, progressCalls := [] }
    else
      let fin := w.chunks.foldl
        (fun (acc : Nat × List (Nat × Nat × Nat)) c =>
          if c == 0 then acc
          else
            let d := acc.1 + c
            (d, acc.2 ++ (if totalSize > 0 then [(d, totalSize, d * 100 / totalSize)] else [])))
        (0, [])
      { result := .ok { skipped := false, cancelled := false, path := filePath, filename := filename },
        bytesWritten := fin.1, progressCalls := fin.2 }
  else
    { result := .error ("Download failed: " ++ toString w.httpStatus),
      bytesWritten := 0, progressCalls := [] }

/-- The parameters `downloadRom` accepts
(src/classes/RommAPIHelper.py line 154). -/
def downloadRomParams : List String :=
  ["self", "romID", "romFilename", "download_path", "progress_callback"]

/-- The keyword arguments the async downloaders in src/app.py pass to
`romm.downloadRom` (lines 970-972, 1057-1059, 1252-1254). -/
def downloadRomCallerKeywords : List String :=
  ["progress_callback", "cancel_event"]

/-- A Python call raises `TypeError` when a keyword argument does not match
any parameter of the callee. -/
def downloadRomCallRaisesTypeError : Bool :=
  downloadRomCallerKeywords.any (fun k => !(downloadRomParams.contains k))

/-- The outcome of the `romm.downloadRom(...)` call expression as seen by the
caller: either an exception propagates or a result dictionary is returned. -/
inductive DlCallOutcome
  | raised (msg : String)
  | returns (r : DlResult)
deriving DecidableEq

/-- The call `romm.downloadRom(rom_id, filename, path, progress_callback=...,
cancel_event=cancel_event)`: if a keyword argument is not accepted by the
callee the call raises `TypeError` before the function body runs; otherwise
the body runs. -/
def callDownloadRom (romFilename downloadPath : String) (w : DlWorld) : DlCallOutcome :=
  if downloadRomCallRaisesTypeError then
    .raised "TypeError: downloadRom() got an unexpected keyword argument cancel_event"
  else
    match (downloadRom romFilename downloadPath w).result with
    | .ok r => .returns r
    | .error e => .raised e

/-! ## `download_standard_rom_async` (src/app.py lines 949-1009) -/

/-- The observable outcome of one background transfer: the final
`download_progress` entry fields, the download record written (if any), and
whether the staged archive was deleted. -/
structure TransferOutcome where
  status : String
  progress : Nat := 0
  message : String := ""
  errorMsg : String := ""
  path : String := ""
  recorded : Option DownloadRecord := none
  archiveDeleted : Bool := false
deriving DecidableEq

/-- Operation `download_standard_rom_async`: check the platform folder, perform the
download call (its outcome is the `dl` parameter), handle the (unreachable,
see `downloadRom`) cancelled result, then record the download and report
`complete`; any exception is caught and stored as an `error` status. -/
def download_standard_rom_async (romId : Nat) (filename : String) (platformId : Nat)
    (romName : String) (fileSize : Nat) (platformFolder : String) (dl : DlCallOutcome) :
    TransferOutcome :=
  if platformFolder == "" then
    { status := "error", errorMsg := "Platform folder not configured" }
  else
    match dl with
    | .raised e => { status := "error", errorMsg := e }
    | .returns r =>
      if r.cancelled then
        { status := "cancelled", progress := 0, message := "Download cancelled" }
      else
        let savedFilename := r.filename
        let filePath := osPathJoin platformFolder savedFilename
        { status := "complete", progress := 100, message := "Downloaded " ++ filename,
          path := platformFolder,
          recorded := some { romId := romId, romName := romName, filename := savedFilename,
                             filePath := filePath, platformId := platformId,
                             fileSize := fileSize } }

/-! ## `download_with_extraction_async` (src/app.py lines 1213-1406) -/

/-- The external facts the extraction phase observes: whether the install
path is a directory, its top-level listing before and after extraction, the
outcome of `zipfile` extraction (an exception message or success), the
outcomes of the `.7z` tool attempts, whether the archive still exists at
deletion time, whether `os.remove` of the archive raises, and whether
`shutil.move` of a non-archive raises. -/
structure ExtractWorld where
  installIsDir : Bool
  itemsBefore : List String
  zipError : Option String
  sevenZipAttempts : List CmdOutcome
  itemsAfter : List String
  archiveStillThere : Bool
  removeArchiveFails : Bool
  moveFails : Option String
deriving DecidableEq

/-- The local variables `(extract_success, extract_message, game_folder,
downloaded_file)` after the per-format dispatch. -/
structure ExtState where
  success : Bool
  message : String
  gameFolder : String
  downloadedFile : String
deriving DecidableEq

/-- The per-format extraction dispatch of `download_with_extraction_async`
(src/app.py lines 1287-1358): `.zip` via `zipfile`, `.7z` via the tool
fallback loop, anything else is moved to the install path when staged
elsewhere, or left in place. `game_folder` starts as `install_path`. -/
def extractDispatch (installPath stagingPath downloadedFile savedFilename : String)
    (w : ExtractWorld) : ExtState :=
  let isZip := pyEndsWith (pyLower savedFilename) ".zip"
  let is7z := pyEndsWith (pyLower savedFilename) ".7z"
  if isZip then
    match w.zipError with
    | none =>
      { success := true, message := "Extracted to " ++ installPath,
        gameFolder := installPath, downloadedFile := downloadedFile }
    | some e =>
      { success := false, message := "ZIP extraction failed: " ++ e,
        gameFolder := installPath, downloadedFile := downloadedFile }
  else if is7z then
    let r := extract7zUnified installPath w.sevenZipAttempts
    { success := r.1, message := r.2, gameFolder := installPath,
      downloadedFile := downloadedFile }
  else
    if stagingPath != "" && stagingPath != installPath then
      match w.moveFails with
      | none =>
        let finalFile := osPathJoin installPath savedFilename
        { success := true, message := "Moved to " ++ installPath,
          gameFolder := finalFile, downloadedFile := finalFile }
      | some e =>
        { success := false, message := "Failed to move file: " ++ e,
          gameFolder := installPath, downloadedFile := downloadedFile }
    else
      { success := true, message := "File saved to " ++ downloadedFile,
        gameFolder := downloadedFile, downloadedFile := downloadedFile }

/-- The difference `set(os.listdir(install_path)) - existing_items`, keeping the listing
order of the post-extraction snapshot. -/
def findNewItems (before after : List String) : List String :=
  after.filter (fun x => !(before.contains x))

/-- The resolved `(game_folder, extract_message)` after the snapshot diff
(src/app.py lines 1360-1366): the first newly-appeared top-level entry, or
the previous `game_folder` when none appeared. -/
def snapshotResolve (installPath : String) (existingItems itemsAfter : List String)
    (st : ExtState) : String × String :=
  match findNewItems existingItems itemsAfter with
  | [] => (st.gameFolder, st.message)
  | newItem :: _ =>
    (osPathJoin installPath newItem, "Extracted to " ++ osPathJoin installPath newItem)

/-- Operation `download_with_extraction_async`: path validation, the download call
(outcome in `dl`), the cancelled check, format dispatch, the snapshot diff
and archive deletion for archive formats, writing a download record for any
non-cancelled completed download, and reporting `extracted` on success or
`complete` (carrying the extraction message) on extraction failure. -/
def download_with_extraction_async (romId : Nat) (filename : String) (platformId : Nat)
    (romName : String) (fileSize : Nat) (installPath stagingPath : String)
    (w : ExtractWorld) (dl : DlCallOutcome) : TransferOutcome :=
  let downloadDest := if stagingPath != "" then stagingPath else installPath
  if downloadDest == "" then
    { status := "error", errorMsg := "Download path not configured" }
  else if installPath == "" then
    { status := "error", errorMsg := "Install path not configured for this platform" }
  else
    match dl with
    | .raised e => { status := "error", errorMsg := e }
    | .returns r =>
      if r.cancelled then
        { status := "cancelled", progress := 0, message := "Download cancelled" }
      else
        let savedFilename := r.filename
        let downloadedFile := osPathJoin downloadDest savedFilename
        let existingItems := if w.installIsDir then w.itemsBefore else []
        let isZip := pyEndsWith (pyLower savedFilename) ".zip"
        let is7z := pyEndsWith (pyLower savedFilename) ".7z"
        let ext := extractDispatch installPath stagingPath downloadedFile savedFilename w
        let post : String × String × Bool :=
          if ext.success && (isZip || is7z) then
            let gm := snapshotResolve installPath existingItems w.itemsAfter ext
            (gm.1, gm.2, w.archiveStillThere && !w.removeArchiveFails)
          else
            (ext.gameFolder, ext.message, false)
        let gameFolder := post.1
        let finalPath := if ext.success then gameFolder else ext.downloadedFile
        let rec0 : DownloadRecord :=
          { romId := romId, romName := romName, filename := savedFilename,
            filePath := finalPath, platformId := platformId, fileSize := fileSize }
        if ext.success then
          { status := "extracted", progress := 100,
            message := "Downloaded and extracted " ++ romName,
            path := gameFolder, recorded := some rec0, archiveDeleted := post.2.2 }
        else
          { status := "complete", progress := 100,
            message := "Downloaded " ++ filename ++ ". " ++ post.2.1,
            path := downloadDest, recorded := some rec0, archiveDeleted := post.2.2 }

/-! ## Progress stream (`api_download_progress`, src/app.py lines 823-846) -/

/-- The statuses whose delivery ends the stream and removes the progress
entry (the inner list at src/app.py line 837). -/
def terminalStatuses : List String := ["complete", "error", "extracted", "cancelled"]

/-- The statuses the generator inspects before deciding whether to stop (the
outer list at src/app.py line 836; `extracting` is inspected but does not
stop the stream). -/
def streamStopCheck : List String := ["complete", "error", "extracting", "extracted", "cancelled"]

/-- Whether a status is terminal for the progress stream. -/
def isTerminalStatus (s : String) : Bool := terminalStatuses.contains s

/-- The observable outcome of the server-sent-events generator over a finite
sequence of polls: the statuses emitted, whether the progress entry was
removed, and whether the generator broke out of its loop. -/
structure SseOutcome where
  emitted : List String
  entryRemoved : Bool
  terminated : Bool
deriving DecidableEq

/-- The generator of `api_download_progress`, driven by the sequence of
values `download_progress.get(rom_id)` takes at each poll (`none` models an
absent or empty entry, which is skipped without emitting).  A present entry
is emitted; a terminal status then removes the entry and stops; every other
status leaves the loop running. -/
def api_download_progress_stream : List (Option String) → SseOutcome
  | [] => { emitted := [], entryRemoved := false, terminated := false }
  | none :: rest => api_download_progress_stream rest
  | some s :: rest =>
    if streamStopCheck.contains s then
      if terminalStatuses.contains s then
        { emitted := [s], entryRemoved := true, terminated := true }
      else
        let o := api_download_progress_stream rest
        { o with emitted := s :: o.emitted }
    else
      let o := api_download_progress_stream rest
      { o with emitted := s :: o.emitted }

/-! ## Sync (`sync_downloads_with_filesystem`, src/app.py lines 352-442) -/

/-- One `os.scandir` entry: name, whether it is a directory, and its file
size (read only for files). -/
structure FsEntry where
  name : String
  isDir : Bool
  size : Nat
deriving DecidableEq

/-- The filesystem as Sync observes it: the listable directories with their
top-level entries, and the set of existing paths. -/
structure SyncFs where
  dirs : List (String × List FsEntry)
  existing : List String
deriving DecidableEq

/-- Listing `os.scandir(dir)` guarded by `os.path.isdir(dir)`: the entry list when
the directory is listable. -/
def SyncFs.dirListing (fs : SyncFs) (dir : String) : Option (List FsEntry) :=
  (fs.dirs.find? (fun p => p.1 == dir)).map (fun p => p.2)

/-- Python `os.path.exists(p)`. -/
def SyncFs.pathExists (fs : SyncFs) (p : String) : Bool := fs.existing.contains p

/-- Internal consistency of a filesystem snapshot: every listed entry exists
at its joined path. -/
def SyncFs.consistent (fs : SyncFs) : Bool :=
  fs.dirs.all (fun d => d.2.all (fun e => fs.existing.contains (osPathJoin d.1 e.name)))

/-- Helper `sanitize_for_match` (src/app.py lines 374-375): lowercase, keep
alphanumerics and spaces, strip. -/
def sanitizeForMatch (name : String) : String :=
  pyStrip (((pyLower name).toList.filter (fun c => c.isAlphanum || c == ' ')).asString)

/-- The `rom_by_filename` insertions contributed by one rom (exact filename,
lowercased, extension-stripped, and its lowercase). -/
def romFilenameEntries (rom : Rom) : List (String × Rom) :=
  if rom.fsName != "" then
    let base := splitextBase rom.fsName
    [(rom.fsName, rom), (pyLower rom.fsName, rom), (base, rom), (pyLower base, rom)]
  else []

/-- The `rom_by_name` insertions contributed by one rom (sanitized
extension-stripped filename, then sanitized display name). -/
def romNameEntries (rom : Rom) : List (String × Rom) :=
  (if rom.fsName != "" then [(sanitizeForMatch (splitextBase rom.fsName), rom)] else [])
    ++ (if rom.name != "" then [(sanitizeForMatch rom.name, rom)] else [])

/-- Building the `rom_by_filename` dictionary in rom order. -/
def buildRomByFilename (roms : List Rom) : List (String × Rom) :=
  roms.foldl (fun acc r => acc ++ romFilenameEntries r) []

/-- Building the `rom_by_name` dictionary in rom order. -/
def buildRomByName (roms : List Rom) : List (String × Rom) :=
  roms.foldl (fun acc r => acc ++ romNameEntries r) []

/-- Python dictionary lookup over an insertion sequence: the latest insertion
for a key wins. -/
def dictGet (d : List (String × Rom)) (k : String) : Option Rom :=
  (d.reverse.find? (fun p => p.1 == k)).map (fun p => p.2)

/-- The rom-folder matcher (src/app.py lines 406-410): exact entry name, else
the extension-stripped name. -/
def matchRomFile (d : List (String × Rom)) (item : String) : Option Rom :=
  match dictGet d item with
  | some r => some r
  | none => dictGet d (splitextBase item)

/-- Operation `record_download` (src/app.py lines 326-333): `INSERT OR REPLACE` keyed
by the unique `rom_id`. -/
def recordDownload (db : List DownloadRecord) (rec : DownloadRecord) : List DownloadRecord :=
  db.filter (fun r => r.romId != rec.romId) ++ [rec]

/-- Building the Python dictionary `{row["rom_id"]: row}`: later rows with
the same rom id replace earlier ones (each step is the same replace-by-id
operation as `recordDownload`). -/
def dedupByRomId (l : List DownloadRecord) : List DownloadRecord :=
  l.foldl recordDownload []

/-- The record the rom-folder pass would insert for one directory entry, if
the entry matches a rom (file size for files, 0 for directories). -/
def pass1ProposedRecord (platformId : Nat) (byFilename : List (String × Rom))
    (platformFolder : String) (e : FsEntry) : Option DownloadRecord :=
  (matchRomFile byFilename e.name).map (fun rom =>
    { romId := rom.id, romName := rom.name, filename := e.name,
      filePath := osPathJoin platformFolder e.name, platformId := platformId,
      fileSize := if !e.isDir then e.size else 0 })

/-- The candidate records of the rom-folder pass (src/app.py lines 400-417),
in scan order. -/
def pass1ProposedRecords (platformId : Nat) (byFilename : List (String × Rom))
    (platformFolder : String) (fs : SyncFs) : List (Option DownloadRecord) :=
  if platformFolder != "" then
    match fs.dirListing platformFolder with
    | some entries => entries.map (pass1ProposedRecord platformId byFilename platformFolder)
    | none => []
  else []

/-- The record the install-path pass would insert for one entry: directories
only, matched by sanitized name, size 0. -/
def pass2ProposedRecord (platformId : Nat) (byName : List (String × Rom)) (p : String)
    (e : FsEntry) : Option DownloadRecord :=
  if e.isDir then
    (dictGet byName (sanitizeForMatch e.name)).map (fun rom =>
      { romId := rom.id, romName := rom.name, filename := e.name,
        filePath := osPathJoin p e.name, platformId := platformId, fileSize := 0 })
  else none

/-- The candidate records of the install-path pass (src/app.py
lines 420-432), in path and scan order. -/
def pass2ProposedRecords (platformId : Nat) (byName : List (String × Rom))
    (installPaths : List String) (fs : SyncFs) : List (Option DownloadRecord) :=
  installPaths.foldl (fun acc p =>
    acc ++
      (if p != "" then
        match fs.dirListing p with
        | some entries => entries.map (pass2ProposedRecord platformId byName p)
        | none => []
      else [])) []

/-- All candidate records of one Sync run, rom-folder pass first. -/
def syncProposedRecords (platformId : Nat) (roms : List Rom) (cfg : PlatformConfig)
    (fs : SyncFs) : List (Option DownloadRecord) :=
  let installPaths :=
    if cfg.autoExtract && !cfg.installPaths.isEmpty then cfg.installPaths else []
  pass1ProposedRecords platformId (buildRomByFilename roms) cfg.romFolder fs
    ++ pass2ProposedRecords platformId (buildRomByName roms) installPaths fs

/-- Mutable sync state: the downloads table plus the `added` / `removed`
counters. -/
structure SyncState where
  db : List DownloadRecord
  added : Nat
  removed : Nat
deriving DecidableEq

/-- One step of the two addition passes: a matched entry whose rom is not in
the initial tracked snapshot is recorded (replacing any same-id row) and
counted; everything else is skipped. -/
def addStep (trackedIds : List Nat) (st : SyncState) : Option DownloadRecord → SyncState
  | some rec =>
    if trackedIds.contains rec.romId then st
    else { st with db := recordDownload st.db rec, added := st.added + 1 }
  | none => st

/-- The two addition passes as a loop over the candidate records. -/
def runAddPass (trackedIds : List Nat) : List (Option DownloadRecord) → SyncState → SyncState
  | [], st => st
  | o :: rest, st => runAddPass trackedIds rest (addStep trackedIds st o)

/-- The removal pass (src/app.py lines 434-440): every initially tracked
record whose non-empty recorded path no longer exists is deleted by rom id
and counted. -/
def syncPass3 (trackedById : List DownloadRecord) (fs : SyncFs) (st : SyncState) : SyncState :=
  match trackedById with
  | [] => st
  | info :: rest =>
    if info.filePath != "" && !(fs.pathExists info.filePath) then
      syncPass3 rest fs
        { st with
          db := st.db.filter (fun r => r.romId != info.romId),
          removed := st.removed + 1 }
    else syncPass3 rest fs st

/-- Operation `sync_downloads_with_filesystem`: snapshot the tracked records of the
platform, run the two addition passes over the candidate records, then run
the removal pass over the initial snapshot. -/
def sync_downloads_with_filesystem (platformId : Nat) (roms : List Rom)
    (cfg : PlatformConfig) (fs : SyncFs) (db : List DownloadRecord) : SyncState :=
  let tracked := db.filter (fun r => r.platformId == platformId)
  let trackedById := dedupByRomId tracked
  let trackedIds := trackedById.map (fun r => r.romId)
  let st := runAddPass trackedIds (syncProposedRecords platformId roms cfg fs)
    { db := db, added := 0, removed := 0 }
  syncPass3 trackedById fs st

/-- The rom ids matched by any entry of either addition pass of one Sync
run. -/
def syncMatchedIds (platformId : Nat) (roms : List Rom) (cfg : PlatformConfig)
    (fs : SyncFs) : List Nat :=
  (syncProposedRecords platformId roms cfg fs).filterMap
    (fun o => o.map (fun rec => rec.romId))

/-- No tracked record of the platform both lost its on-disk path and still
matches an on-disk entry (the precondition under which Sync is
idempotent). -/
def noStaleMatched (platformId : Nat) (roms : List Rom) (cfg : PlatformConfig)
    (fs : SyncFs) (db : List DownloadRecord) : Bool :=
  db.all (fun r =>
    !(r.platformId == platformId) || r.filePath == "" || fs.pathExists r.filePath ||
      !((syncMatchedIds platformId roms cfg fs).contains r.romId))

/-! # Theorems -/

/-! ## General helper lemmas -/

theorem list_contains_iff {α : Type} [BEq α] [LawfulBEq α] (l : List α) (x : α) :
    l.contains x = true ↔ x ∈ l := by
  simp [List.contains]

theorem str_append_ne_empty (a b : String) (ha : a ≠ "") : a ++ b ≠ "" := by
  intro h
  apply ha
  have hd : (a ++ b).data = a.data ++ b.data := by
    cases a
    cases b
    rfl
  have hempty : (a ++ b).data = ([] : List Char) := by rw [h]
  have : a.data ++ b.data = ([] : List Char) := by rw [← hd, hempty]
  have : a.data = [] := (List.append_eq_nil.mp this).1
  cases a
  simp_all

/-! ## Claim C2: StartTransfer with auto-extract and no install paths -/

/-- Claim C2: For every StartTransfer request on an item whose platform has
auto-extract enabled and an empty install-path list, `api_download_rom` fails
synchronously with the HTTP 400 configuration error and leaves the shared
state untouched: no Transfer State entry, no Cancel Signal, and no background
job is produced. -/
theorem C2_auto_extract_empty_paths_config_error
    (st : AppState) (rom : Rom) (cfg : PlatformConfig) (sel stage : String)
    (hauto : cfg.autoExtract = true) (hpaths : cfg.installPaths = []) :
    api_download_rom st (some rom) cfg sel stage =
      (StartResult.configError 400
        "Install paths not configured for this platform. Please set them in Settings.", st) := by
  simp [api_download_rom, hauto, hpaths]

/-- Witness for C2 at a concrete request. -/
theorem C2_witness :
    api_download_rom { downloadProgress := [], downloadCancelEvents := [] }
      (some { id := 42, fsName := "game.zip", name := "Game", platformId := 7,
              fsSizeBytes := 1000 })
      { romFolder := "", autoExtract := true, installPaths := [] } "" "" =
      (StartResult.configError 400
        "Install paths not configured for this platform. Please set them in Settings.",
       { downloadProgress := [], downloadCancelEvents := [] }) :=
  C2_auto_extract_empty_paths_config_error _ _ _ _ _ rfl rfl

/-! ## Claim C3: DeleteDownload semantics -/

/-- Claim C3: For every DeleteDownload call on an item that has a Download
Record, the record is removed from the store regardless of filesystem
deletion errors; a deletion failure is accumulated into the returned errors
list while the call still returns a success result; and when the recorded
path no longer exists the call still removes the record and returns the
success result whose empty `deleted_files` and `errors` lists identify the
missing-path case, without throwing. -/
theorem C3_delete_download_record_always_removed
    (downloads : List DownloadRecord) (fs : DeleteFs) (romId : Nat) (info : DownloadRecord)
    (hfind : downloads.find? (fun r => r.romId == romId) = some info) :
    (∃ msg df errs, (api_delete_download downloads fs romId).1 = .ok msg df errs) ∧
    (∀ r ∈ (api_delete_download downloads fs romId).2, r.romId ≠ romId) ∧
    (info.filePath ≠ "" → fs.pathExists info.filePath = false →
      (api_delete_download downloads fs romId).1 = .ok ("Deleted " ++ info.romName) [] []) ∧
    (∀ e, info.filePath ≠ "" → fs.pathExists info.filePath = true →
      fs.rmFails info.filePath = some e →
      (api_delete_download downloads fs romId).1 =
        .ok ("Deleted " ++ info.romName) []
          ["Failed to delete " ++ info.filePath ++ ": " ++ e]) := by
  refine ⟨?_, ?_, ?_, ?_⟩
  · simp only [api_delete_download, hfind]
    exact ⟨_, _, _, rfl⟩
  · intro r hr
    simp only [api_delete_download, hfind] at hr
    have := (List.mem_filter.mp hr).2
    simpa using this
  · intro hne hmiss
    simp only [api_delete_download, hfind, hmiss]
    have hb : (info.filePath != "") = true := by simpa using hne
    simp [hb]
  · intro e hne hex hrm
    have hb : (info.filePath != "") = true := by simpa using hne
    simp only [api_delete_download, hfind]
    simp [hb, hex, hrm]

/-- Witness for C3: deleting a record whose path is gone from disk. -/
theorem C3_witness :
    (∃ msg df errs,
      (api_delete_download
        [{ romId := 42, romName := "Game", filename := "game.bin", filePath := "/gone",
           platformId := 7, fileSize := 100 }]
        { pathExists := fun _ => false, isDirPath := fun _ => false, rmFails := fun _ => none }
        42).1 = .ok msg df errs) ∧
    (∀ r ∈ (api_delete_download
        [{ romId := 42, romName := "Game", filename := "game.bin", filePath := "/gone",
           platformId := 7, fileSize := 100 }]
        { pathExists := fun _ => false, isDirPath := fun _ => false, rmFails := fun _ => none }
        42).2, r.romId ≠ 42) ∧
    (api_delete_download
        [{ romId := 42, romName := "Game", filename := "game.bin", filePath := "/gone",
           platformId := 7, fileSize := 100 }]
        { pathExists := fun _ => false, isDirPath := fun _ => false, rmFails := fun _ => none }
        42).1 = .ok "Deleted Game" [] [] := by
  have h := C3_delete_download_record_always_removed
    [{ romId := 42, romName := "Game", filename := "game.bin", filePath := "/gone",
       platformId := 7, fileSize := 100 }]
    { pathExists := fun _ => false, isDirPath := fun _ => false, rmFails := fun _ => none }
    42
    { romId := 42, romName := "Game", filename := "game.bin", filePath := "/gone",
      platformId := 7, fileSize := 100 }
    (by rfl)
  exact ⟨h.1, h.2.1, h.2.2.1 (by decide) (by rfl)⟩

/-! ## Claim C1: cancellation of an in-flight transfer -/

/-- Claim C1 (code bug): invoking CancelTransfer on an in-flight transfer is
claimed to make the download loop observe the cancel signal within one chunk
and move the status to `cancelled` with no Download Record.  In the source,
`RommAPIHelper.downloadRom` accepts no `cancel_event` parameter and its chunk
loop checks no cancel signal, while `download_standard_rom_async` passes
`cancel_event=` to it: the call raises `TypeError` before any chunk is read,
the exception handler stores status `error` (never `cancelled`), and the
cancel signal is never observed. -/
theorem C1_cancel_signal_never_reaches_download_loop :
    downloadRomParams.contains "cancel_event" = false ∧
    downloadRomCallerKeywords.contains "cancel_event" = true ∧
    downloadRomCallRaisesTypeError = true ∧
    (download_standard_rom_async 42 "game.zip" 7 "Game" 1048576 "/roms/gba"
      (callDownloadRom "game.zip" "/roms/gba/"
        { httpStatus := 200, contentLength := 1048576, dispositionFilename := none,
          destFileExists := false, chunks := [] })).status = "error" ∧
    (download_standard_rom_async 42 "game.zip" 7 "Game" 1048576 "/roms/gba"
      (callDownloadRom "game.zip" "/roms/gba/"
        { httpStatus := 200, contentLength := 1048576, dispositionFilename := none,
          destFileExists := false, chunks := [] })).status ≠ "cancelled" ∧
    (download_standard_rom_async 42 "game.zip" 7 "Game" 1048576 "/roms/gba"
      (callDownloadRom "game.zip" "/roms/gba/"
        { httpStatus := 200, contentLength := 1048576, dispositionFilename := none,
          destFileExists := false, chunks := [] })).recorded = none := by
  decide

/-! ## Claim C10: skipping an already-present destination file -/

/-- Claim C10 (code bug): when the resolved destination file already exists,
`downloadRom` itself does skip the download — zero bytes written, no progress
calls, `skipped=True` with the existing path — and, had the call returned,
`download_standard_rom_async` would write a Download Record and report
`complete` exactly as for a fresh download.  The actual engine call, however,
raises `TypeError` (unexpected `cancel_event` keyword), so the transfer ends
in `error` with no record. -/
theorem C10_skip_existing_file_engine_behavior :
    (downloadRom "game.zip" "/roms/gba/"
      { httpStatus := 200, contentLength := 1000, dispositionFilename := none,
        destFileExists := true, chunks := [40, 60] }).result =
      .ok { skipped := true, cancelled := false, path := "/roms/gba/game.zip",
              filename := "game.zip" } ∧
    (downloadRom "game.zip" "/roms/gba/"
      { httpStatus := 200, contentLength := 1000, dispositionFilename := none,
        destFileExists := true, chunks := [40, 60] }).bytesWritten = 0 ∧
    (downloadRom "game.zip" "/roms/gba/"
      { httpStatus := 200, contentLength := 1000, dispositionFilename := none,
        destFileExists := true, chunks := [40, 60] }).progressCalls = [] ∧
    (download_standard_rom_async 42 "game.zip" 7 "Game" 1000 "/roms/gba"
      (DlCallOutcome.returns
        { skipped := true, cancelled := false,
          path := "/roms/gba/game.zip", filename := "game.zip" })) =
    (download_standard_rom_async 42 "game.zip" 7 "Game" 1000 "/roms/gba"
      (DlCallOutcome.returns
        { skipped := false, cancelled := false,
          path := "/roms/gba/game.zip", filename := "game.zip" })) ∧
    (download_standard_rom_async 42 "game.zip" 7 "Game" 1000 "/roms/gba"
      (DlCallOutcome.returns
        { skipped := true, cancelled := false,
          path := "/roms/gba/game.zip", filename := "game.zip" })).status = "complete" ∧
    (download_standard_rom_async 42 "game.zip" 7 "Game" 1000 "/roms/gba"
      (DlCallOutcome.returns
        { skipped := true, cancelled := false,
          path := "/roms/gba/game.zip", filename := "game.zip" })).recorded =
      some { romId := 42, romName := "Game", filename := "game.zip",
             filePath := "/roms/gba/game.zip", platformId := 7, fileSize := 1000 } ∧
    (download_standard_rom_async 42 "game.zip" 7 "Game" 1000 "/roms/gba"
      (callDownloadRom "game.zip" "/roms/gba/"
        { httpStatus := 200, contentLength := 1000, dispositionFilename := none,
          destFileExists := true, chunks := [40, 60] })).status = "error" ∧
    (download_standard_rom_async 42 "game.zip" 7 "Game" 1000 "/roms/gba"
      (callDownloadRom "game.zip" "/roms/gba/"
        { httpStatus := 200, contentLength := 1000, dispositionFilename := none,
          destFileExists := true, chunks := [40, 60] })).recorded = none := by
  decide

/-! ## Claim C4: ordered `.7z` tool fallback -/

theorem run7z_fail_fst (p : String) :
    ∀ (l : List CmdOutcome), (∀ a ∈ l, isCmdSuccess a = false) →
      ∀ m, (run7zAttempts p l m).1 = false := by
  intro l
  induction l with
  | nil => intro _ m; simp [run7zAttempts]
  | cons a rest ih =>
    intro h m
    have ha := h a (List.mem_cons_self a rest)
    have hrest : ∀ x ∈ rest, isCmdSuccess x = false :=
      fun x hx => h x (List.mem_cons_of_mem a hx)
    cases a with
    | notFound => simpa [run7zAttempts] using ih hrest m
    | ran rc stderr =>
      have hrc : (rc == 0) = false := by simpa [isCmdSuccess] using ha
      simpa [run7zAttempts, hrc] using ih hrest _
    | raised e => simpa [run7zAttempts] using ih hrest _

theorem run7z_fail_msg_ne (p : String) :
    ∀ (l : List CmdOutcome), (∀ a ∈ l, isCmdSuccess a = false) →
      ∀ m, m ≠ "" → (run7zAttempts p l m).2 ≠ "" := by
  intro l
  induction l with
  | nil => intro _ m hm; simpa [run7zAttempts] using hm
  | cons a rest ih =>
    intro h m hm
    have ha := h a (List.mem_cons_self a rest)
    have hrest : ∀ x ∈ rest, isCmdSuccess x = false :=
      fun x hx => h x (List.mem_cons_of_mem a hx)
    cases a with
    | notFound => simpa [run7zAttempts] using ih hrest m hm
    | ran rc stderr =>
      have hrc : (rc == 0) = false := by simpa [isCmdSuccess] using ha
      have : ("Extraction failed: " ++ stderr) ≠ "" :=
        str_append_ne_empty _ _ (by decide)
      simpa [run7zAttempts, hrc] using ih hrest _ this
    | raised e =>
      have : ("Extraction failed: " ++ e) ≠ "" :=
        str_append_ne_empty _ _ (by decide)
      simpa [run7zAttempts] using ih hrest _ this

theorem run7z_fail_msg_empty_iff (p : String) :
    ∀ (l : List CmdOutcome), (∀ a ∈ l, isCmdSuccess a = false) →
      ((run7zAttempts p l "").2 = "" ↔ ∀ a ∈ l, a = CmdOutcome.notFound) := by
  intro l
  induction l with
  | nil => intro _; simp [run7zAttempts]
  | cons a rest ih =>
    intro h
    have ha := h a (List.mem_cons_self a rest)
    have hrest : ∀ x ∈ rest, isCmdSuccess x = false :=
      fun x hx => h x (List.mem_cons_of_mem a hx)
    cases a with
    | notFound =>
      simpa [run7zAttempts] using ih hrest
    | ran rc stderr =>
      have hrc : (rc == 0) = false := by simpa [isCmdSuccess] using ha
      have hne : ("Extraction failed: " ++ stderr) ≠ "" :=
        str_append_ne_empty _ _ (by decide)
      have hmsg := run7z_fail_msg_ne p rest hrest _ hne
      simp [run7zAttempts, hrc, hmsg]
    | raised e =>
      have hne : ("Extraction failed: " ++ e) ≠ "" :=
        str_append_ne_empty _ _ (by decide)
      have hmsg := run7z_fail_msg_ne p rest hrest _ hne
      simp [run7zAttempts, hmsg]

theorem run7z_first_success (p : String) :
    ∀ (pre : List CmdOutcome) (s : String) (post : List CmdOutcome) (m : String),
      (∀ a ∈ pre, isCmdSuccess a = false) →
      run7zAttempts p (pre ++ CmdOutcome.ran 0 s :: post) m = (true, "Extracted to " ++ p) := by
  intro pre
  induction pre with
  | nil => intro s post m _; simp [run7zAttempts]
  | cons a rest ih =>
    intro s post m h
    have ha := h a (List.mem_cons_self a rest)
    have hrest : ∀ x ∈ rest, isCmdSuccess x = false :=
      fun x hx => h x (List.mem_cons_of_mem a hx)
    cases a with
    | notFound => simpa [run7zAttempts] using ih s post m hrest
    | ran rc stderr =>
      have hrc : (rc == 0) = false := by simpa [isCmdSuccess] using ha
      simpa [run7zAttempts, hrc] using ih s post _ hrest
    | raised e => simpa [run7zAttempts] using ih s post _ hrest

/-- Counterexample to claim C4: with the `7z` binary installed but failing
(return code 2, stderr `boom`) and all other tools missing, every attempt
fails, yet `download_with_extraction_async`'s `.7z` handler reports the
tool's error output, not a message advising installation of a suitable
tool. -/
theorem C4_counterexample :
    extract7zUnified "/games/install"
      [CmdOutcome.ran 2 "boom", CmdOutcome.notFound, CmdOutcome.notFound] =
      (false, "Extraction failed: boom") ∧
    (∀ a ∈ [CmdOutcome.ran 2 "boom", CmdOutcome.notFound, CmdOutcome.notFound],
      isCmdSuccess a = false) ∧
    advisesToolInstall "Extraction failed: boom" = false := by
  decide

/-- Claim C4 (amended): the `.7z` handler tries the ordered tool invocations,
stopping at the first that exits 0.  When every attempt fails, both call
sites report `success=false`; the windows-game variant always reports the
install-advice message, while the unified variant reports the tool-missing
message exactly when the loop produced no error message — that is, when every
tool was missing — and otherwise reports the last tool error. -/
theorem C4_amended_seven_zip_fallback (p : String) (attempts : List CmdOutcome) :
    ((∀ a ∈ attempts, isCmdSuccess a = false) →
      (extract7zUnified p attempts).1 = false ∧
      extract7zWindows p attempts = (false, sevenZipMissingMsgWindows) ∧
      extract7zUnified p attempts =
        (false, if (run7zAttempts p attempts "").2 = "" then sevenZipMissingMsgUnified
                else (run7zAttempts p attempts "").2) ∧
      ((run7zAttempts p attempts "").2 = "" ↔ ∀ a ∈ attempts, a = CmdOutcome.notFound)) ∧
    (∀ pre s post, attempts = pre ++ CmdOutcome.ran 0 s :: post →
      (∀ a ∈ pre, isCmdSuccess a = false) →
      extract7zUnified p attempts = (true, "Extracted to " ++ p) ∧
      extract7zWindows p attempts = (true, "Extracted to " ++ p)) := by
  constructor
  · intro h
    have h1 := run7z_fail_fst p attempts h ""
    refine ⟨?_, ?_, ?_, run7z_fail_msg_empty_iff p attempts h⟩
    · by_cases h2 : (run7zAttempts p attempts "").2 = "" <;>
        simp [extract7zUnified, h1, h2]
    · simp [extract7zWindows, h1]
    · by_cases h2 : (run7zAttempts p attempts "").2 = ""
      · simp [extract7zUnified, h1, h2]
      · simp [extract7zUnified, h1, h2]
        exact Prod.ext_iff.mpr ⟨h1, rfl⟩
  · intro pre s post heq hpre
    have := run7z_first_success p pre s post "" hpre
    rw [heq]
    constructor
    · simp [extract7zUnified, this]
    · simp [extract7zWindows, this]

/-- Witness for C4 (amended) at concrete tool outcomes: all tools missing,
and a successful second tool. -/
theorem C4_amended_witness :
    extract7zUnified "/inst" [CmdOutcome.notFound] = (false, sevenZipMissingMsgUnified) ∧
    extract7zWindows "/inst" [CmdOutcome.notFound] = (false, sevenZipMissingMsgWindows) ∧
    extract7zUnified "/inst" [CmdOutcome.notFound, CmdOutcome.ran 0 "out"] =
      (true, "Extracted to /inst") := by
  have h1 := (C4_amended_seven_zip_fallback "/inst" [CmdOutcome.notFound]).1 (by decide)
  have h2 := (C4_amended_seven_zip_fallback "/inst"
    [CmdOutcome.notFound, CmdOutcome.ran 0 "out"]).2 [CmdOutcome.notFound] "out" []
    (by decide) (by decide)
  refine ⟨?_, h1.2.1, h2.1⟩
  have h3 := h1.2.2.1
  have h4 : (run7zAttempts "/inst" [CmdOutcome.notFound] "").2 = "" := by decide
  rw [h3, if_pos h4]

/-! ## Claim C8: progress stream termination and cleanup -/

theorem stream_all_nonterminal (polls : List (Option String))
    (h : ∀ s, some s ∈ polls → isTerminalStatus s = false) :
    api_download_progress_stream polls =
      { emitted := polls.filterMap id, entryRemoved := false, terminated := false } := by
  induction polls with
  | nil => simp [api_download_progress_stream]
  | cons hd rest ih =>
    have hrest : ∀ s, some s ∈ rest → isTerminalStatus s = false :=
      fun s hs => h s (List.mem_cons_of_mem _ hs)
    cases hd with
    | none => simpa [api_download_progress_stream] using ih hrest
    | some t =>
      have ht : isTerminalStatus t = false := h t (List.mem_cons_self _ _)
      have htT : t ∉ terminalStatuses := by
        intro hmem
        have : terminalStatuses.contains t = true := (list_contains_iff _ _).mpr hmem
        rw [isTerminalStatus] at ht
        rw [this] at ht
        cases ht
      by_cases hstop : t ∈ streamStopCheck
      · simp [api_download_progress_stream, hstop, htT, ih hrest]
      · simp [api_download_progress_stream, hstop, htT, ih hrest]

theorem stream_with_terminal (polls : List (Option String))
    (h : ∃ s, isTerminalStatus s = true ∧ some s ∈ polls) :
    (api_download_progress_stream polls).terminated = true ∧
    (api_download_progress_stream polls).entryRemoved = true ∧
    ((api_download_progress_stream polls).emitted.filter isTerminalStatus).length = 1 ∧
    (∃ s, (api_download_progress_stream polls).emitted.getLast? = some s ∧
      isTerminalStatus s = true) := by
  induction polls with
  | nil =>
    rcases h with ⟨s, _, hmem⟩
    simp at hmem
  | cons hd rest ih =>
    rcases h with ⟨s, hterm, hmem⟩
    cases hd with
    | none =>
      have hmem2 : some s ∈ rest := by
        rcases List.mem_cons.mp hmem with h1 | h1
        · cases h1
        · exact h1
      simpa [api_download_progress_stream] using ih ⟨s, hterm, hmem2⟩
    | some t =>
      by_cases ht : isTerminalStatus t = true
      · have htT : t ∈ terminalStatuses := (list_contains_iff _ _).mp ht
        have hstop : t ∈ streamStopCheck := by fin_cases htT <;> decide
        simp [api_download_progress_stream, hstop, htT, ht]
      · have ht2 : isTerminalStatus t = false := by
          cases hh : isTerminalStatus t
          · rfl
          · exact absurd hh ht
        have htT : t ∉ terminalStatuses := by
          intro hmem2
          exact ht ((list_contains_iff _ _).mpr hmem2)
        have hmem2 : some s ∈ rest := by
          rcases List.mem_cons.mp hmem with h1 | h1
          · exfalso
            have hts : t = s := by injection h1.symm
            rw [hts, hterm] at ht2
            cases ht2
          · exact h1
        have hrec := ih ⟨s, hterm, hmem2⟩
        rcases hrec.2.2.2 with ⟨u, hu, hu2⟩
        have hne : (api_download_progress_stream rest).emitted ≠ [] := by
          intro hnil
          rw [hnil] at hu
          cases hu
        have hlast : ∀ e : List String, e ≠ [] → (t :: e).getLast? = e.getLast? := by
          intro e hnil
          cases e with
          | nil => exact absurd rfl hnil
          | cons x xs => exact List.getLast?_cons_cons
        by_cases hstop : t ∈ streamStopCheck
        · refine ⟨?_, ?_, ?_, ?_⟩ <;>
            simp [api_download_progress_stream, hstop, htT, ht2, hrec.1, hrec.2.1,
              hrec.2.2.1, hlast _ hne]
          exact ⟨u, hu, hu2⟩
        · refine ⟨?_, ?_, ?_, ?_⟩ <;>
            simp [api_download_progress_stream, hstop, htT, ht2, hrec.1, hrec.2.1,
              hrec.2.2.1, hlast _ hne]
          exact ⟨u, hu, hu2⟩

/-- Claim C8: the progress stream delivers snapshots and, once it observes a
terminal status (`complete`, `error`, `extracted`, `cancelled`), delivers it
exactly once as the last emission, removes the progress entry, and stops; a
poll sequence containing only non-terminal statuses (such as `extracting`)
is streamed in full with the entry never removed and the stream still
running. -/
theorem C8_stream_terminal_once_then_cleanup (polls : List (Option String)) :
    ((∃ s, isTerminalStatus s = true ∧ some s ∈ polls) →
      (api_download_progress_stream polls).terminated = true ∧
      (api_download_progress_stream polls).entryRemoved = true ∧
      ((api_download_progress_stream polls).emitted.filter isTerminalStatus).length = 1 ∧
      (∃ s, (api_download_progress_stream polls).emitted.getLast? = some s ∧
        isTerminalStatus s = true)) ∧
    ((∀ s, some s ∈ polls → isTerminalStatus s = false) →
      (api_download_progress_stream polls).terminated = false ∧
      (api_download_progress_stream polls).entryRemoved = false ∧
      (api_download_progress_stream polls).emitted = polls.filterMap id) := by
  constructor
  · exact stream_with_terminal polls
  · intro h
    rw [stream_all_nonterminal polls h]
    exact ⟨rfl, rfl, rfl⟩

/-! ## Claims C5, C6, C9: staged-extraction transfers -/

theorem extract7zUnified_fst (p : String) (l : List CmdOutcome) :
    (extract7zUnified p l).1 = (run7zAttempts p l "").1 := by
  rcases hb : (!(run7zAttempts p l "").1 && ((run7zAttempts p l "").2 == "")) <;>
    simp [extract7zUnified, hb]

theorem findNewItems_head (b a : List String) (x : String) (rest : List String)
    (h : findNewItems b a = x :: rest) : x ∈ a ∧ x ∉ b := by
  have hx : x ∈ findNewItems b a := by
    rw [h]
    exact List.mem_cons_self _ _
  have hm := List.mem_filter.mp hx
  refine ⟨hm.1, ?_⟩
  intro hb
  have hb2 : b.contains x = true := (list_contains_iff _ _).mpr hb
  have := hm.2
  rw [hb2] at this
  cases this

theorem dest_ne_empty (installPath stagingPath : String) (hinst : installPath ≠ "") :
    (((if stagingPath = "" then installPath else stagingPath) : String)) ≠ "" := by
  by_cases hs : stagingPath = "" <;> simp [hs, hinst]

/-- Claim C5: for every successful archive extraction, the engine resolves
the output path by diffing the destination directory top-level snapshots
taken before and after extraction: a first newly-appeared entry (an entry of
the after-snapshot absent from the before-snapshot) joined onto the install
path becomes the recorded path; when no new entry appeared the install
directory itself is recorded. -/
theorem C5_resolved_path_from_snapshot_diff
    (romId : Nat) (filename : String) (platformId : Nat) (romName : String) (fileSize : Nat)
    (installPath stagingPath : String) (w : ExtractWorld) (r : DlResult)
    (hinst : installPath ≠ "") (hcancel : r.cancelled = false)
    (hsucc : (pyEndsWith (pyLower r.filename) ".zip" = true ∧ w.zipError = none) ∨
             (pyEndsWith (pyLower r.filename) ".zip" = false ∧
              pyEndsWith (pyLower r.filename) ".7z" = true ∧
              (run7zAttempts installPath w.sevenZipAttempts "").1 = true)) :
    (download_with_extraction_async romId filename platformId romName fileSize
        installPath stagingPath w (.returns r)).status = "extracted" ∧
    (findNewItems (if w.installIsDir then w.itemsBefore else []) w.itemsAfter = [] →
      ∃ rec, (download_with_extraction_async romId filename platformId romName fileSize
          installPath stagingPath w (.returns r)).recorded = some rec ∧
        rec.filePath = installPath) ∧
    (∀ x rest,
      findNewItems (if w.installIsDir then w.itemsBefore else []) w.itemsAfter = x :: rest →
      (∃ rec, (download_with_extraction_async romId filename platformId romName fileSize
          installPath stagingPath w (.returns r)).recorded = some rec ∧
        rec.filePath = osPathJoin installPath x) ∧
      x ∈ w.itemsAfter ∧ x ∉ (if w.installIsDir then w.itemsBefore else [])) := by
  have hdest := dest_ne_empty installPath stagingPath hinst
  rcases hsucc with ⟨hzip, hze⟩ | ⟨hzipf, h7z, h7s⟩
  · refine ⟨?_, ?_, ?_⟩
    · simp [download_with_extraction_async, extractDispatch, hdest, hinst, hcancel, hzip, hze]
    · intro hnew
      simp [download_with_extraction_async, extractDispatch, snapshotResolve, hdest, hinst,
        hcancel, hzip, hze, hnew]
    · intro x rest hnew
      refine ⟨?_, (findNewItems_head _ _ _ _ hnew).1, (findNewItems_head _ _ _ _ hnew).2⟩
      simp [download_with_extraction_async, extractDispatch, snapshotResolve, hdest, hinst,
        hcancel, hzip, hze, hnew]
  · have hfst : (extract7zUnified installPath w.sevenZipAttempts).1 = true := by
      rw [extract7zUnified_fst]
      exact h7s
    refine ⟨?_, ?_, ?_⟩
    · simp [download_with_extraction_async, extractDispatch, hdest, hinst, hcancel, hzipf,
        h7z, hfst]
    · intro hnew
      simp [download_with_extraction_async, extractDispatch, snapshotResolve, hdest, hinst,
        hcancel, hzipf, h7z, hfst, hnew]
    · intro x rest hnew
      refine ⟨?_, (findNewItems_head _ _ _ _ hnew).1, (findNewItems_head _ _ _ _ hnew).2⟩
      simp [download_with_extraction_async, extractDispatch, snapshotResolve, hdest, hinst,
        hcancel, hzipf, h7z, hfst, hnew]

/-- Witness for C5: a `.zip` whose extraction creates the new top-level
folder `game` in `/games/install`. -/
theorem C5_witness :
    (download_with_extraction_async 42 "game.zip" 7 "Game" 1000 "/games/install" "/tmp/stage"
      { installIsDir := true, itemsBefore := ["existing"], zipError := none,
        sevenZipAttempts := [], itemsAfter := ["existing", "game"], archiveStillThere := true,
        removeArchiveFails := false, moveFails := none }
      (.returns { skipped := false, cancelled := false, path := "/tmp/stage/game.zip",
                  filename := "game.zip" })).status = "extracted" ∧
    (∃ rec, (download_with_extraction_async 42 "game.zip" 7 "Game" 1000 "/games/install"
        "/tmp/stage"
        { installIsDir := true, itemsBefore := ["existing"], zipError := none,
          sevenZipAttempts := [], itemsAfter := ["existing", "game"],
          archiveStillThere := true, removeArchiveFails := false, moveFails := none }
        (.returns { skipped := false, cancelled := false, path := "/tmp/stage/game.zip",
                    filename := "game.zip" })).recorded = some rec ∧
      rec.filePath = osPathJoin "/games/install" "game") := by
  have h := C5_resolved_path_from_snapshot_diff 42 "game.zip" 7 "Game" 1000 "/games/install"
    "/tmp/stage"
    { installIsDir := true, itemsBefore := ["existing"], zipError := none,
      sevenZipAttempts := [], itemsAfter := ["existing", "game"], archiveStillThere := true,
      removeArchiveFails := false, moveFails := none }
    { skipped := false, cancelled := false, path := "/tmp/stage/game.zip",
      filename := "game.zip" }
    (by decide) rfl (Or.inl ⟨by decide, rfl⟩)
  exact ⟨h.1, (h.2.2 "game" [] (by decide)).1⟩

/-- Claim C6: a staged-extraction transfer whose download succeeded but whose
extraction failed (a `.zip` entry raised, or every `.7z` tool attempt failed)
still ends in the terminal status `complete`, not `error`; a Download Record
is still written pointing at the un-extracted downloaded file in the download
destination; and the extraction failure text appears only in the progress
message field. -/
theorem C6_extraction_failure_degrades_to_complete
    (romId : Nat) (filename : String) (platformId : Nat) (romName : String) (fileSize : Nat)
    (installPath stagingPath : String) (w : ExtractWorld) (r : DlResult)
    (hinst : installPath ≠ "") (hcancel : r.cancelled = false) :
    (∀ e, pyEndsWith (pyLower r.filename) ".zip" = true → w.zipError = some e →
      (download_with_extraction_async romId filename platformId romName fileSize
          installPath stagingPath w (.returns r)).status = "complete" ∧
      (download_with_extraction_async romId filename platformId romName fileSize
          installPath stagingPath w (.returns r)).recorded =
        some { romId := romId, romName := romName, filename := r.filename,
               filePath := osPathJoin
                 (if stagingPath != "" then stagingPath else installPath) r.filename,
               platformId := platformId, fileSize := fileSize } ∧
      (download_with_extraction_async romId filename platformId romName fileSize
          installPath stagingPath w (.returns r)).message =
        "Downloaded " ++ filename ++ ". " ++ ("ZIP extraction failed: " ++ e)) ∧
    (pyEndsWith (pyLower r.filename) ".zip" = false →
     pyEndsWith (pyLower r.filename) ".7z" = true →
     (∀ a ∈ w.sevenZipAttempts, isCmdSuccess a = false) →
      (download_with_extraction_async romId filename platformId romName fileSize
          installPath stagingPath w (.returns r)).status = "complete" ∧
      (download_with_extraction_async romId filename platformId romName fileSize
          installPath stagingPath w (.returns r)).recorded =
        some { romId := romId, romName := romName, filename := r.filename,
               filePath := osPathJoin
                 (if stagingPath != "" then stagingPath else installPath) r.filename,
               platformId := platformId, fileSize := fileSize } ∧
      (download_with_extraction_async romId filename platformId romName fileSize
          installPath stagingPath w (.returns r)).message =
        "Downloaded " ++ filename ++ ". " ++
          (extract7zUnified installPath w.sevenZipAttempts).2) := by
  have hdest := dest_ne_empty installPath stagingPath hinst
  constructor
  · intro e hzip hze
    refine ⟨?_, ?_, ?_⟩ <;>
      simp [download_with_extraction_async, extractDispatch, hdest, hinst, hcancel, hzip, hze]
  · intro hzipf h7z hfail
    have hfst : (extract7zUnified installPath w.sevenZipAttempts).1 = false := by
      rw [extract7zUnified_fst]
      exact run7z_fail_fst installPath w.sevenZipAttempts hfail ""
    refine ⟨?_, ?_, ?_⟩ <;>
      simp [download_with_extraction_async, extractDispatch, hdest, hinst, hcancel, hzipf,
        h7z, hfst]

/-- Witness for C6: a `.zip` that fails to extract still completes with a
record at the staged file. -/
theorem C6_witness :
    (download_with_extraction_async 42 "game.zip" 7 "Game" 1000 "/games/install" "/tmp/stage"
      { installIsDir := true, itemsBefore := ["existing"], zipError := some "bad zip",
        sevenZipAttempts := [], itemsAfter := ["existing"], archiveStillThere := true,
        removeArchiveFails := false, moveFails := none }
      (.returns { skipped := false, cancelled := false, path := "/tmp/stage/game.zip",
                  filename := "game.zip" })).status = "complete" ∧
    (download_with_extraction_async 42 "game.zip" 7 "Game" 1000 "/games/install" "/tmp/stage"
      { installIsDir := true, itemsBefore := ["existing"], zipError := some "bad zip",
        sevenZipAttempts := [], itemsAfter := ["existing"], archiveStillThere := true,
        removeArchiveFails := false, moveFails := none }
      (.returns { skipped := false, cancelled := false, path := "/tmp/stage/game.zip",
                  filename := "game.zip" })).recorded =
      some { romId := 42, romName := "Game", filename := "game.zip",
             filePath := osPathJoin "/tmp/stage" "game.zip", platformId := 7,
             fileSize := 1000 } ∧
    (download_with_extraction_async 42 "game.zip" 7 "Game" 1000 "/games/install" "/tmp/stage"
      { installIsDir := true, itemsBefore := ["existing"], zipError := some "bad zip",
        sevenZipAttempts := [], itemsAfter := ["existing"], archiveStillThere := true,
        removeArchiveFails := false, moveFails := none }
      (.returns { skipped := false, cancelled := false, path := "/tmp/stage/game.zip",
                  filename := "game.zip" })).message =
      "Downloaded game.zip. " ++ ("ZIP extraction failed: " ++ "bad zip") := by
  have h := (C6_extraction_failure_degrades_to_complete 42 "game.zip" 7 "Game" 1000
    "/games/install" "/tmp/stage"
    { installIsDir := true, itemsBefore := ["existing"], zipError := some "bad zip",
      sevenZipAttempts := [], itemsAfter := ["existing"], archiveStillThere := true,
      removeArchiveFails := false, moveFails := none }
    { skipped := false, cancelled := false, path := "/tmp/stage/game.zip",
      filename := "game.zip" }
    (by decide) rfl).1 "bad zip" (by decide) rfl
  refine ⟨h.1, h.2.1, ?_⟩
  rw [h.2.2]
  decide

/-- Counterexample to claim C9: a successful staged `.zip` extraction that
creates no new top-level entry (it only overwrote data inside the existing
folder) records the pre-existing install directory `/games/install` itself as
the Download Record path — a directory that existed before extraction,
refuting that the recorded path is always a directory that did not exist
before. -/
theorem C9_counterexample :
    (download_with_extraction_async 42 "game.zip" 7 "Game" 1000 "/games/install" "/tmp/stage"
      { installIsDir := true, itemsBefore := ["existing"], zipError := none,
        sevenZipAttempts := [], itemsAfter := ["existing"], archiveStillThere := true,
        removeArchiveFails := false, moveFails := none }
      (.returns { skipped := false, cancelled := false, path := "/tmp/stage/game.zip",
                  filename := "game.zip" })).status = "extracted" ∧
    (download_with_extraction_async 42 "game.zip" 7 "Game" 1000 "/games/install" "/tmp/stage"
      { installIsDir := true, itemsBefore := ["existing"], zipError := none,
        sevenZipAttempts := [], itemsAfter := ["existing"], archiveStillThere := true,
        removeArchiveFails := false, moveFails := none }
      (.returns { skipped := false, cancelled := false, path := "/tmp/stage/game.zip",
                  filename := "game.zip" })).recorded =
      some { romId := 42, romName := "Game", filename := "game.zip",
             filePath := "/games/install", platformId := 7, fileSize := 1000 } ∧
    (download_with_extraction_async 42 "game.zip" 7 "Game" 1000 "/games/install" "/tmp/stage"
      { installIsDir := true, itemsBefore := ["existing"], zipError := none,
        sevenZipAttempts := [], itemsAfter := ["existing"], archiveStillThere := true,
        removeArchiveFails := false, moveFails := none }
      (.returns { skipped := false, cancelled := false, path := "/tmp/stage/game.zip",
                  filename := "game.zip" })).archiveDeleted = true := by
  decide

/-- Claim C9 (amended): for a staged `.zip` transfer whose extraction
succeeds, deletion of the staged archive is attempted whenever it is still
present, and a deletion failure changes nothing else (it is only logged):
status, record and path are the same whatever the deletion outcome.  The
Download Record path is the first newly-appeared top-level entry of the
install path when one exists — an entry that was indeed absent before
extraction — and is the pre-existing install directory itself otherwise. -/
theorem C9_amended_zip_success_archive_cleanup
    (romId : Nat) (filename : String) (platformId : Nat) (romName : String) (fileSize : Nat)
    (installPath stagingPath : String) (w : ExtractWorld) (r : DlResult)
    (hinst : installPath ≠ "") (hcancel : r.cancelled = false)
    (hzip : pyEndsWith (pyLower r.filename) ".zip" = true) (hze : w.zipError = none) :
    (download_with_extraction_async romId filename platformId romName fileSize
        installPath stagingPath w (.returns r)).status = "extracted" ∧
    (download_with_extraction_async romId filename platformId romName fileSize
        installPath stagingPath w (.returns r)).archiveDeleted =
      (w.archiveStillThere && !w.removeArchiveFails) ∧
    (∀ b, ((download_with_extraction_async romId filename platformId romName fileSize
          installPath stagingPath { w with removeArchiveFails := b } (.returns r)).status =
        (download_with_extraction_async romId filename platformId romName fileSize
          installPath stagingPath w (.returns r)).status) ∧
      ((download_with_extraction_async romId filename platformId romName fileSize
          installPath stagingPath { w with removeArchiveFails := b } (.returns r)).recorded =
        (download_with_extraction_async romId filename platformId romName fileSize
          installPath stagingPath w (.returns r)).recorded)) ∧
    (findNewItems (if w.installIsDir then w.itemsBefore else []) w.itemsAfter = [] →
      ∃ rec, (download_with_extraction_async romId filename platformId romName fileSize
          installPath stagingPath w (.returns r)).recorded = some rec ∧
        rec.filePath = installPath) ∧
    (∀ x rest,
      findNewItems (if w.installIsDir then w.itemsBefore else []) w.itemsAfter = x :: rest →
      (∃ rec, (download_with_extraction_async romId filename platformId romName fileSize
          installPath stagingPath w (.returns r)).recorded = some rec ∧
        rec.filePath = osPathJoin installPath x) ∧
      x ∉ (if w.installIsDir then w.itemsBefore else [])) := by
  have hdest := dest_ne_empty installPath stagingPath hinst
  refine ⟨?_, ?_, ?_, ?_, ?_⟩
  · simp [download_with_extraction_async, extractDispatch, hdest, hinst, hcancel, hzip, hze]
  · simp [download_with_extraction_async, extractDispatch, hdest, hinst, hcancel, hzip, hze]
  · intro b
    constructor <;>
      simp [download_with_extraction_async, extractDispatch, hdest, hinst, hcancel, hzip, hze]
  · intro hnew
    simp [download_with_extraction_async, extractDispatch, snapshotResolve, hdest, hinst,
      hcancel, hzip, hze, hnew]
  · intro x rest hnew
    refine ⟨?_, (findNewItems_head _ _ _ _ hnew).2⟩
    simp [download_with_extraction_async, extractDispatch, snapshotResolve, hdest, hinst,
      hcancel, hzip, hze, hnew]

/-- Witness for C9 (amended): the spec example — extracting `game.zip` into
`/games/install` creates `game`; the archive is deleted and the record points
at the new directory. -/
theorem C9_amended_witness :
    (download_with_extraction_async 42 "game.zip" 7 "Game" 1000 "/games/install" "/tmp/stage"
      { installIsDir := true, itemsBefore := [], zipError := none,
        sevenZipAttempts := [], itemsAfter := ["game"], archiveStillThere := true,
        removeArchiveFails := false, moveFails := none }
      (.returns { skipped := false, cancelled := false, path := "/tmp/stage/game.zip",
                  filename := "game.zip" })).status = "extracted" ∧
    (download_with_extraction_async 42 "game.zip" 7 "Game" 1000 "/games/install" "/tmp/stage"
      { installIsDir := true, itemsBefore := [], zipError := none,
        sevenZipAttempts := [], itemsAfter := ["game"], archiveStillThere := true,
        removeArchiveFails := false, moveFails := none }
      (.returns { skipped := false, cancelled := false, path := "/tmp/stage/game.zip",
                  filename := "game.zip" })).archiveDeleted = (true && !false) ∧
    (∃ rec, (download_with_extraction_async 42 "game.zip" 7 "Game" 1000 "/games/install"
        "/tmp/stage"
        { installIsDir := true, itemsBefore := [], zipError := none,
          sevenZipAttempts := [], itemsAfter := ["game"], archiveStillThere := true,
          removeArchiveFails := false, moveFails := none }
        (.returns { skipped := false, cancelled := false, path := "/tmp/stage/game.zip",
                    filename := "game.zip" })).recorded = some rec ∧
      rec.filePath = osPathJoin "/games/install" "game") := by
  have h := C9_amended_zip_success_archive_cleanup 42 "game.zip" 7 "Game" 1000 "/games/install"
    "/tmp/stage"
    { installIsDir := true, itemsBefore := [], zipError := none,
      sevenZipAttempts := [], itemsAfter := ["game"], archiveStillThere := true,
      removeArchiveFails := false, moveFails := none }
    { skipped := false, cancelled := false, path := "/tmp/stage/game.zip",
      filename := "game.zip" }
    (by decide) rfl (by decide) rfl
  exact ⟨h.1, h.2.1, (h.2.2.2.2 "game" [] (by decide)).1⟩

/-- Witness for C8 at a concrete poll sequence ending in `complete`. -/
theorem C8_witness :
    (api_download_progress_stream
      [some "downloading", some "extracting", some "complete", some "extracting"]).terminated
        = true ∧
    (api_download_progress_stream
      [some "downloading", some "extracting", some "complete", some "extracting"]).entryRemoved
        = true ∧
    ((api_download_progress_stream
      [some "downloading", some "extracting", some "complete", some "extracting"]).emitted.filter
        isTerminalStatus).length = 1 := by
  have h := (C8_stream_terminal_once_then_cleanup
    [some "downloading", some "extracting", some "complete", some "extracting"]).1
    ⟨"complete", by decide, by decide⟩
  exact ⟨h.1, h.2.1, h.2.2.1⟩

/-! ## Claim C7: Sync idempotence -/

/-- Counterexample to claim C7: one rom (`game.bin`, id 42) present on disk
in the platform folder, and a download record for it whose recorded path
`/gone` no longer exists.  The first Sync removes the stale record (its rom
id being blocked from re-addition by the initial tracked snapshot); the
second Sync, with no filesystem or record changes in between, re-adds the rom
and returns `added = 1`, not `{added: 0, removed: 0}`. -/
theorem C7_counterexample :
    (sync_downloads_with_filesystem 7
      [{ id := 42, fsName := "game.bin", name := "Game", platformId := 7, fsSizeBytes := 100 }]
      { romFolder := "/roms", autoExtract := false, installPaths := [] }
      { dirs := [("/roms", [{ name := "game.bin", isDir := false, size := 100 }])],
        existing := ["/roms", "/roms/game.bin"] }
      [{ romId := 42, romName := "Game", filename := "game.bin", filePath := "/gone",
         platformId := 7, fileSize := 100 }]).removed = 1 ∧
    (sync_downloads_with_filesystem 7
      [{ id := 42, fsName := "game.bin", name := "Game", platformId := 7, fsSizeBytes := 100 }]
      { romFolder := "/roms", autoExtract := false, installPaths := [] }
      { dirs := [("/roms", [{ name := "game.bin", isDir := false, size := 100 }])],
        existing := ["/roms", "/roms/game.bin"] }
      (sync_downloads_with_filesystem 7
        [{ id := 42, fsName := "game.bin", name := "Game", platformId := 7,
           fsSizeBytes := 100 }]
        { romFolder := "/roms", autoExtract := false, installPaths := [] }
        { dirs := [("/roms", [{ name := "game.bin", isDir := false, size := 100 }])],
          existing := ["/roms", "/roms/game.bin"] }
        [{ romId := 42, romName := "Game", filename := "game.bin", filePath := "/gone",
           platformId := 7, fileSize := 100 }]).db).added = 1 ∧
    ({ dirs := [("/roms", [{ name := "game.bin", isDir := false, size := 100 }])],
       existing := ["/roms", "/roms/game.bin"] } : SyncFs).consistent = true := by
  decide

theorem recordDownload_mem (db : List DownloadRecord) (rec r : DownloadRecord) :
    r ∈ recordDownload db rec ↔ (r ∈ db ∧ r.romId ≠ rec.romId) ∨ r = rec := by
  simp [recordDownload, List.mem_filter, List.mem_append, bne_iff_ne]

theorem recordDownload_hasRom (db : List DownloadRecord) (rec : DownloadRecord) (id : Nat) :
    (∃ r ∈ recordDownload db rec, r.romId = id) ↔
      (∃ r ∈ db, r.romId = id) ∨ rec.romId = id := by
  constructor
  · rintro ⟨r, hr, hid⟩
    rcases (recordDownload_mem db rec r).mp hr with ⟨hdb, _⟩ | rfl
    · exact Or.inl ⟨r, hdb, hid⟩
    · exact Or.inr hid
  · rintro (⟨r, hr, hid⟩ | hid)
    · by_cases he : r.romId = rec.romId
      · refine ⟨rec, (recordDownload_mem db rec rec).mpr (Or.inr rfl), ?_⟩
        rw [← he]
        exact hid
      · exact ⟨r, (recordDownload_mem db rec r).mpr (Or.inl ⟨hr, he⟩), hid⟩
    · exact ⟨rec, (recordDownload_mem db rec rec).mpr (Or.inr rfl), hid⟩

theorem addStep_mem (t : List Nat) (st : SyncState) (o : Option DownloadRecord)
    (r : DownloadRecord) (h : r ∈ (addStep t st o).db) : r ∈ st.db ∨ o = some r := by
  cases o with
  | none => exact Or.inl h
  | some rec =>
    by_cases hc : t.contains rec.romId = true
    · simp only [addStep, hc, if_true] at h
      exact Or.inl h
    · simp only [addStep, hc, if_false, Bool.false_eq_true] at h
      rcases (recordDownload_mem st.db rec r).mp h with ⟨hdb, _⟩ | rfl
      · exact Or.inl hdb
      · exact Or.inr rfl

theorem addStep_keeps_tracked (t : List Nat) (st : SyncState) (o : Option DownloadRecord)
    (r : DownloadRecord) (hr : r ∈ st.db) (hid : r.romId ∈ t) : r ∈ (addStep t st o).db := by
  cases o with
  | none => exact hr
  | some rec =>
    by_cases hc : t.contains rec.romId = true
    · simpa only [addStep, hc, if_true] using hr
    · have hne : r.romId ≠ rec.romId := by
        intro he
        exact hc ((list_contains_iff t rec.romId).mpr (he ▸ hid))
      simp only [addStep, hc, if_false, Bool.false_eq_true]
      exact (recordDownload_mem st.db rec r).mpr (Or.inl ⟨hr, hne⟩)

theorem addStep_keeps_good (pid : Nat) (fs : SyncFs) (t : List Nat) (st : SyncState)
    (o : Option DownloadRecord)
    (hgood : ∀ rec, o = some rec → rec.platformId = pid ∧ fs.pathExists rec.filePath = true)
    (id : Nat)
    (h : ∃ r ∈ st.db, r.romId = id ∧ r.platformId = pid ∧ fs.pathExists r.filePath = true) :
    ∃ r ∈ (addStep t st o).db, r.romId = id ∧ r.platformId = pid ∧
      fs.pathExists r.filePath = true := by
  rcases h with ⟨r, hr, hid, hplat, hex⟩
  cases o with
  | none => exact ⟨r, hr, hid, hplat, hex⟩
  | some rec =>
    by_cases hc : t.contains rec.romId = true
    · refine ⟨r, ?_, hid, hplat, hex⟩
      simpa only [addStep, hc, if_true] using hr
    · by_cases he : r.romId = rec.romId
      · refine ⟨rec, ?_, ?_, (hgood rec rfl).1, (hgood rec rfl).2⟩
        · simp only [addStep, hc, if_false, Bool.false_eq_true]
          exact (recordDownload_mem st.db rec rec).mpr (Or.inr rfl)
        · rw [← he]
          exact hid
      · refine ⟨r, ?_, hid, hplat, hex⟩
        simp only [addStep, hc, if_false, Bool.false_eq_true]
        exact (recordDownload_mem st.db rec r).mpr (Or.inl ⟨hr, he⟩)

theorem addStep_id (t : List Nat) (st : SyncState) (o : Option DownloadRecord)
    (h : ∀ rec, o = some rec → rec.romId ∈ t) : addStep t st o = st := by
  cases o with
  | none => rfl
  | some rec =>
    have hc : t.contains rec.romId = true := (list_contains_iff _ _).mpr (h rec rfl)
    simp only [addStep, hc, if_true]

theorem runAddPass_keeps_tracked (t : List Nat) :
    ∀ (l : List (Option DownloadRecord)) (st : SyncState) (r : DownloadRecord),
      r ∈ st.db → r.romId ∈ t → r ∈ (runAddPass t l st).db := by
  intro l
  induction l with
  | nil => intro st r hr _; exact hr
  | cons a rest ih =>
    intro st r hr hid
    exact ih _ r (addStep_keeps_tracked t st a r hr hid) hid

theorem runAddPass_mem (t : List Nat) :
    ∀ (l : List (Option DownloadRecord)) (st : SyncState) (r : DownloadRecord),
      r ∈ (runAddPass t l st).db → r ∈ st.db ∨ ∃ o ∈ l, o = some r := by
  intro l
  induction l with
  | nil => intro st r h; exact Or.inl h
  | cons a rest ih =>
    intro st r h
    rcases ih _ r h with h1 | ⟨o, ho, hor⟩
    · rcases addStep_mem t st a r h1 with h2 | h2
      · exact Or.inl h2
      · exact Or.inr ⟨a, List.mem_cons_self _ _, h2⟩
    · exact Or.inr ⟨o, List.mem_cons_of_mem _ ho, hor⟩

theorem runAddPass_keeps_good (pid : Nat) (fs : SyncFs) (t : List Nat) :
    ∀ (l : List (Option DownloadRecord)),
      (∀ o ∈ l, ∀ rec, o = some rec →
        rec.platformId = pid ∧ fs.pathExists rec.filePath = true) →
      ∀ (st : SyncState) (id : Nat),
        (∃ r ∈ st.db, r.romId = id ∧ r.platformId = pid ∧
          fs.pathExists r.filePath = true) →
        ∃ r ∈ (runAddPass t l st).db, r.romId = id ∧ r.platformId = pid ∧
          fs.pathExists r.filePath = true := by
  intro l
  induction l with
  | nil => intro _ st id h; exact h
  | cons a rest ih =>
    intro hgood st id h
    exact ih (fun o ho => hgood o (List.mem_cons_of_mem _ ho)) _ id
      (addStep_keeps_good pid fs t st a (hgood a (List.mem_cons_self _ _)) id h)

theorem runAddPass_establishes (pid : Nat) (fs : SyncFs) (t : List Nat) :
    ∀ (l : List (Option DownloadRecord)),
      (∀ o ∈ l, ∀ rec, o = some rec →
        rec.platformId = pid ∧ fs.pathExists rec.filePath = true) →
      ∀ (st : SyncState), ∀ o ∈ l, ∀ rec, o = some rec →
        rec.romId ∈ t ∨
        ∃ r ∈ (runAddPass t l st).db, r.romId = rec.romId ∧ r.platformId = pid ∧
          fs.pathExists r.filePath = true := by
  intro l
  induction l with
  | nil =>
    intro _ st o ho
    simp at ho
  | cons a rest ih =>
    intro hgood st o ho rec hrec
    have hgood' : ∀ o ∈ rest, ∀ rec, o = some rec →
        rec.platformId = pid ∧ fs.pathExists rec.filePath = true :=
      fun o ho => hgood o (List.mem_cons_of_mem _ ho)
    rcases List.mem_cons.mp ho with heq | ho'
    · by_cases hc : rec.romId ∈ t
      · exact Or.inl hc
      · right
        have hcb : t.contains rec.romId = false := by
          cases hh : t.contains rec.romId
          · rfl
          · exact absurd ((list_contains_iff _ _).mp hh) hc
        have ha : a = some rec := by rw [← heq, hrec]
        have hmem : rec ∈ (addStep t st a).db := by
          rw [ha]
          simp only [addStep, hcb, if_false, Bool.false_eq_true]
          exact (recordDownload_mem st.db rec rec).mpr (Or.inr rfl)
        have hgooda := hgood a (List.mem_cons_self _ _) rec ha
        exact runAddPass_keeps_good pid fs t rest hgood' (addStep t st a) rec.romId
          ⟨rec, hmem, rfl, hgooda.1, hgooda.2⟩
    · exact ih hgood' (addStep t st a) o ho' rec hrec

theorem runAddPass_id (t : List Nat) :
    ∀ (l : List (Option DownloadRecord)),
      (∀ o ∈ l, ∀ rec, o = some rec → rec.romId ∈ t) →
      ∀ (st : SyncState), runAddPass t l st = st := by
  intro l
  induction l with
  | nil => intro _ st; rfl
  | cons a rest ih =>
    intro h st
    have h1 : addStep t st a = st :=
      addStep_id t st a (fun rec hr => h a (List.mem_cons_self _ _) rec hr)
    show runAddPass t rest (addStep t st a) = st
    rw [h1]
    exact ih (fun o ho rec hr => h o (List.mem_cons_of_mem _ ho) rec hr) st

theorem syncPass3_mem (fs : SyncFs) :
    ∀ (tr : List DownloadRecord) (st : SyncState) (r : DownloadRecord),
      (r ∈ (syncPass3 tr fs st).db ↔ r ∈ st.db ∧
        ∀ info ∈ tr, (info.filePath != "" && !(fs.pathExists info.filePath)) = true →
          r.romId ≠ info.romId) := by
  intro tr
  induction tr with
  | nil => intro st r; simp [syncPass3]
  | cons info rest ih =>
    intro st r
    by_cases hc : (info.filePath != "" && !(fs.pathExists info.filePath)) = true
    · simp only [syncPass3, hc, if_true]
      rw [ih]
      simp only [List.mem_filter, bne_iff_ne, List.forall_mem_cons, hc]
      constructor
      · rintro ⟨⟨hdb, hne⟩, hrest⟩
        exact ⟨hdb, fun _ => by simpa using hne, hrest⟩
      · rintro ⟨hdb, hinfo, hrest⟩
        exact ⟨⟨hdb, by simpa using hinfo trivial⟩, hrest⟩
    · simp only [syncPass3, hc, if_false, Bool.false_eq_true]
      rw [ih]
      simp only [List.forall_mem_cons]
      constructor
      · rintro ⟨hdb, hrest⟩
        exact ⟨hdb, fun hx => absurd hx hc, hrest⟩
      · rintro ⟨hdb, _, hrest⟩
        exact ⟨hdb, hrest⟩

theorem syncPass3_id (fs : SyncFs) :
    ∀ (tr : List DownloadRecord),
      (∀ info ∈ tr, (info.filePath != "" && !(fs.pathExists info.filePath)) = false) →
      ∀ (st : SyncState), syncPass3 tr fs st = st := by
  intro tr
  induction tr with
  | nil => intro _ st; rfl
  | cons info rest ih =>
    intro h st
    have h1 : (info.filePath != "" && !(fs.pathExists info.filePath)) = false :=
      h info (List.mem_cons_self _ _)
    simp only [syncPass3, h1, if_false, Bool.false_eq_true]
    exact ih (fun x hx => h x (List.mem_cons_of_mem _ hx)) st

theorem dedupByRomId_aux_mem :
    ∀ (l acc : List DownloadRecord) (r : DownloadRecord),
      r ∈ l.foldl recordDownload acc → r ∈ acc ∨ r ∈ l := by
  intro l
  induction l with
  | nil => intro acc r h; exact Or.inl h
  | cons a rest ih =>
    intro acc r h
    rcases ih (recordDownload acc a) r h with h1 | h1
    · rcases (recordDownload_mem acc a r).mp h1 with ⟨hacc, _⟩ | rfl
      · exact Or.inl hacc
      · exact Or.inr (List.mem_cons_self _ _)
    · exact Or.inr (List.mem_cons_of_mem _ h1)

theorem dedupByRomId_subset (l : List DownloadRecord) (r : DownloadRecord)
    (h : r ∈ dedupByRomId l) : r ∈ l := by
  rcases dedupByRomId_aux_mem l [] r h with h1 | h1
  · cases h1
  · exact h1

theorem dedupByRomId_aux_hasRom :
    ∀ (l acc : List DownloadRecord) (id : Nat),
      ((∃ r ∈ l.foldl recordDownload acc, r.romId = id) ↔
        (∃ r ∈ acc, r.romId = id) ∨ (∃ r ∈ l, r.romId = id)) := by
  intro l
  induction l with
  | nil => intro acc id; simp
  | cons a rest ih =>
    intro acc id
    have h1 := ih (recordDownload acc a) id
    constructor
    · intro h
      rcases h1.mp h with h2 | h2
      · rcases (recordDownload_hasRom acc a id).mp h2 with h3 | h3
        · exact Or.inl h3
        · exact Or.inr ⟨a, List.mem_cons_self _ _, h3⟩
      · rcases h2 with ⟨r, hr, hid⟩
        exact Or.inr ⟨r, List.mem_cons_of_mem _ hr, hid⟩
    · intro h
      apply h1.mpr
      rcases h with h2 | ⟨r, hr, hid⟩
      · exact Or.inl ((recordDownload_hasRom acc a id).mpr (Or.inl h2))
      · rcases List.mem_cons.mp hr with heq | hr'
        · exact Or.inl ((recordDownload_hasRom acc a id).mpr (Or.inr (heq ▸ hid)))
        · exact Or.inr ⟨r, hr', hid⟩

theorem dedupByRomId_hasRom (l : List DownloadRecord) (id : Nat) :
    (∃ r ∈ dedupByRomId l, r.romId = id) ↔ (∃ r ∈ l, r.romId = id) := by
  have := dedupByRomId_aux_hasRom l [] id
  simpa [dedupByRomId] using this

theorem nodup_romId_inj :
    ∀ (l : List DownloadRecord), (l.map DownloadRecord.romId).Nodup →
      ∀ r1 ∈ l, ∀ r2 ∈ l, r1.romId = r2.romId → r1 = r2 := by
  intro l
  induction l with
  | nil => intro _ r1 h1; cases h1
  | cons a rest ih =>
    intro hn r1 h1 r2 h2 heq
    rw [List.map_cons, List.nodup_cons] at hn
    rcases List.mem_cons.mp h1 with rfl | h1' <;> rcases List.mem_cons.mp h2 with rfl | h2'
    · rfl
    · exfalso
      exact hn.1 (heq ▸ List.mem_map_of_mem DownloadRecord.romId h2')
    · exfalso
      exact hn.1 (heq ▸ List.mem_map_of_mem DownloadRecord.romId h1')
    · exact ih hn.2 r1 h1' r2 h2' heq

theorem consistent_listing (fs : SyncFs) (hfs : fs.consistent = true) (dir : String)
    (entries : List FsEntry) (h : fs.dirListing dir = some entries) :
    ∀ e ∈ entries, fs.pathExists (osPathJoin dir e.name) = true := by
  intro e he
  unfold SyncFs.dirListing at h
  rcases hfind : fs.dirs.find? (fun p => p.1 == dir) with _ | p
  · rw [hfind] at h
    cases h
  · rw [hfind] at h
    have hp2 : p.2 = entries := by simpa using h
    have hpmem : p ∈ fs.dirs := List.mem_of_find?_eq_some hfind
    have hpd : p.1 = dir := by
      have := List.find?_some hfind
      simpa using this
    unfold SyncFs.consistent at hfs
    have hall := (List.all_eq_true.mp hfs) p hpmem
    have hall2 := List.all_eq_true.mp hall e (hp2 ▸ he)
    unfold SyncFs.pathExists
    rw [← hpd]
    exact hall2

theorem foldl_append_mem {α β : Type} (g : α → List β) :
    ∀ (l : List α) (acc : List β) (x : β),
      (x ∈ l.foldl (fun acc p => acc ++ g p) acc ↔ x ∈ acc ∨ ∃ p ∈ l, x ∈ g p) := by
  intro l
  induction l with
  | nil => intro acc x; simp
  | cons a rest ih =>
    intro acc x
    rw [List.foldl_cons, ih]
    simp only [List.mem_append, List.mem_cons]
    constructor
    · rintro ((hx | hx) | ⟨p, hp, hx⟩)
      · exact Or.inl hx
      · exact Or.inr ⟨a, Or.inl rfl, hx⟩
      · exact Or.inr ⟨p, Or.inr hp, hx⟩
    · rintro (hx | ⟨p, hp | hp, hx⟩)
      · exact Or.inl (Or.inl hx)
      · exact Or.inl (Or.inr (hp ▸ hx))
      · exact Or.inr ⟨p, hp, hx⟩

theorem proposed_good (platformId : Nat) (roms : List Rom) (cfg : PlatformConfig)
    (fs : SyncFs) (hfs : fs.consistent = true) :
    ∀ o ∈ syncProposedRecords platformId roms cfg fs, ∀ rec, o = some rec →
      rec.platformId = platformId ∧ fs.pathExists rec.filePath = true := by
  intro o ho rec hrec
  subst hrec
  unfold syncProposedRecords at ho
  rcases List.mem_append.mp ho with h1 | h2
  · unfold pass1ProposedRecords at h1
    by_cases hpf : (cfg.romFolder != "") = true
    · rw [if_pos hpf] at h1
      rcases hd : fs.dirListing cfg.romFolder with _ | entries
      · rw [hd] at h1
        cases h1
      · rw [hd] at h1
        rcases List.mem_map.mp h1 with ⟨e, he, hoe⟩
        unfold pass1ProposedRecord at hoe
        rcases hm : matchRomFile (buildRomByFilename roms) e.name with _ | rom
        · rw [hm] at hoe
          cases hoe
        · rw [hm] at hoe
          have hrec2 := Option.some.inj hoe
          constructor
          · rw [← hrec2]
          · rw [← hrec2]
            exact consistent_listing fs hfs cfg.romFolder entries hd e he
    · rw [if_neg hpf] at h1
      cases h1
  · unfold pass2ProposedRecords at h2
    rw [foldl_append_mem] at h2
    rcases h2 with h2 | ⟨p, _, h2⟩
    · cases h2
    · by_cases hp : (p != "") = true
      · rw [if_pos hp] at h2
        rcases hd : fs.dirListing p with _ | entries
        · rw [hd] at h2
          cases h2
        · rw [hd] at h2
          rcases List.mem_map.mp h2 with ⟨e, he, hoe⟩
          unfold pass2ProposedRecord at hoe
          by_cases hdir : e.isDir = true
          · rw [if_pos hdir] at hoe
            rcases hm : dictGet (buildRomByName roms) (sanitizeForMatch e.name) with _ | rom
            · rw [hm] at hoe
              cases hoe
            · rw [hm] at hoe
              have hrec2 := Option.some.inj hoe
              constructor
              · rw [← hrec2]
              · rw [← hrec2]
                exact consistent_listing fs hfs p entries hd e he
          · rw [if_neg hdir] at hoe
            cases hoe
      · rw [if_neg hp] at h2
        cases h2

theorem matched_of_proposed (platformId : Nat) (roms : List Rom) (cfg : PlatformConfig)
    (fs : SyncFs) (o : Option DownloadRecord)
    (ho : o ∈ syncProposedRecords platformId roms cfg fs) (rec : DownloadRecord)
    (hrec : o = some rec) :
    rec.romId ∈ syncMatchedIds platformId roms cfg fs := by
  unfold syncMatchedIds
  refine List.mem_filterMap.mpr ⟨o, ho, ?_⟩
  rw [hrec]
  rfl

theorem stale_unmatched (platformId : Nat) (roms : List Rom) (cfg : PlatformConfig)
    (fs : SyncFs) (db : List DownloadRecord)
    (h : noStaleMatched platformId roms cfg fs db = true) :
    ∀ r ∈ db, r.platformId = platformId → r.filePath ≠ "" →
      fs.pathExists r.filePath = false →
      r.romId ∉ syncMatchedIds platformId roms cfg fs := by
  intro r hr hplat hfp hex hmem
  have hall := (List.all_eq_true.mp h) r hr
  have hcm : (syncMatchedIds platformId roms cfg fs).contains r.romId = true :=
    (list_contains_iff _ _).mpr hmem
  simp [hplat, hfp, hex, hcm] at hall
  exact hall hmem

/-- Claim C7 (amended): Sync is idempotent — the second of two runs with no
filesystem or record changes in between returns `{added: 0, removed: 0}` —
provided no tracked record of the platform both lost its on-disk path and
still matches an on-disk entry (such a record is removed by the first run and
re-added by the second, see the counterexample); record rom ids are unique
(the table's UNIQUE constraint) and the listings are consistent with the
existing-path set. -/
theorem C7_amended_sync_idempotent_unless_stale_matched
    (platformId : Nat) (roms : List Rom) (cfg : PlatformConfig) (fs : SyncFs)
    (db : List DownloadRecord)
    (hfs : fs.consistent = true)
    (hnodup : (db.map DownloadRecord.romId).Nodup)
    (hstale : noStaleMatched platformId roms cfg fs db = true) :
    (sync_downloads_with_filesystem platformId roms cfg fs
      (sync_downloads_with_filesystem platformId roms cfg fs db).db).added = 0 ∧
    (sync_downloads_with_filesystem platformId roms cfg fs
      (sync_downloads_with_filesystem platformId roms cfg fs db).db).removed = 0 := by
  have hgood := proposed_good platformId roms cfg fs hfs
  have hstaleP := stale_unmatched platformId roms cfg fs db hstale
  set P := syncProposedRecords platformId roms cfg fs with hPdef
  set tracked := db.filter (fun r => r.platformId == platformId) with htrdef
  set trackedById := dedupByRomId tracked with htbdef
  set t := trackedById.map (fun r => r.romId) with htdef
  set stMid := runAddPass t P { db := db, added := 0, removed := 0 } with hmiddef
  set run1 := syncPass3 trackedById fs stMid with hr1def
  have hrun1 : sync_downloads_with_filesystem platformId roms cfg fs db = run1 := rfl
  rw [hrun1]
  set db1 := run1.db with hdb1def
  set tracked2 := db1.filter (fun r => r.platformId == platformId) with htr2def
  set trackedById2 := dedupByRomId tracked2 with htb2def
  set t2 := trackedById2.map (fun r => r.romId) with ht2def
  have hrun2 : sync_downloads_with_filesystem platformId roms cfg fs db1 =
      syncPass3 trackedById2 fs (runAddPass t2 P { db := db1, added := 0, removed := 0 }) :=
    rfl
  -- a stale record in the initial tracked snapshot never matches a proposed rom
  have hsub : ∀ info ∈ trackedById,
      (info.filePath != "" && !(fs.pathExists info.filePath)) = true →
      info.romId ∉ syncMatchedIds platformId roms cfg fs := by
    intro info hinfo hc
    have hintr : info ∈ tracked := dedupByRomId_subset tracked info hinfo
    have hindb : info ∈ db := (List.mem_filter.mp hintr).1
    have hplat : info.platformId = platformId := by
      simpa using (List.mem_filter.mp hintr).2
    simp only [Bool.and_eq_true] at hc
    rcases hc with ⟨h1, h2⟩
    have hfp : info.filePath ≠ "" := by simpa using h1
    have hex : fs.pathExists info.filePath = false := by simpa using h2
    exact hstaleP info hindb hplat hfp hex
  -- every proposed rom id survives run 1 as a record of this platform
  have hA : ∀ o ∈ P, ∀ rec, o = some rec →
      ∃ r ∈ db1, r.romId = rec.romId ∧ r.platformId = platformId := by
    intro o ho rec hrec
    have hmat := matched_of_proposed platformId roms cfg fs o ho rec hrec
    have hkeep : ∀ x : DownloadRecord, x ∈ stMid.db → x.romId = rec.romId →
        x.platformId = platformId →
        ∃ r ∈ db1, r.romId = rec.romId ∧ r.platformId = platformId := by
      intro x hx hxid hxplat
      refine ⟨x, ?_, hxid, hxplat⟩
      refine (syncPass3_mem fs trackedById stMid x).mpr ⟨hx, ?_⟩
      intro info hinfo hcond hxi
      apply hsub info hinfo hcond
      rw [← hxi, hxid]
      exact hmat
    rcases runAddPass_establishes platformId fs t P hgood
        { db := db, added := 0, removed := 0 } o ho rec hrec with
      hc | ⟨r, hr, hid, hplat2, _⟩
    · rcases List.mem_map.mp hc with ⟨info0, hinfo0, hids⟩
      have hintr := dedupByRomId_subset tracked info0 hinfo0
      have hindb : info0 ∈ db := (List.mem_filter.mp hintr).1
      have hplat0 : info0.platformId = platformId := by
        simpa using (List.mem_filter.mp hintr).2
      have hin1 : info0 ∈ stMid.db :=
        runAddPass_keeps_tracked t P { db := db, added := 0, removed := 0 } info0 hindb
          (List.mem_map_of_mem _ hinfo0)
      exact hkeep info0 hin1 hids hplat0
    · exact hkeep r hr hid hplat2
  -- run 2 therefore adds nothing
  have hB1 : ∀ o ∈ P, ∀ rec, o = some rec → rec.romId ∈ t2 := by
    intro o ho rec hrec
    rcases hA o ho rec hrec with ⟨r, hr, hid, hplat⟩
    have hrtr2 : r ∈ tracked2 := List.mem_filter.mpr ⟨hr, by simp [hplat]⟩
    rcases (dedupByRomId_hasRom tracked2 rec.romId).mpr ⟨r, hrtr2, hid⟩ with ⟨x, hx, hxid⟩
    have hmm : x.romId ∈ trackedById2.map (fun r => r.romId) :=
      List.mem_map_of_mem (fun r => r.romId) hx
    rw [ht2def]
    rw [hxid] at hmm
    exact hmm
  have hid2 : runAddPass t2 P { db := db1, added := 0, removed := 0 } =
      { db := db1, added := 0, removed := 0 } :=
    runAddPass_id t2 P hB1 _
  -- and run 2 removes nothing: no record of run 1 is stale
  have hB2 : ∀ info ∈ trackedById2,
      (info.filePath != "" && !(fs.pathExists info.filePath)) = false := by
    intro info hinfo
    have hintr2 : info ∈ tracked2 := dedupByRomId_subset tracked2 info hinfo
    have hindb1 : info ∈ db1 := (List.mem_filter.mp hintr2).1
    have hplat : info.platformId = platformId := by
      simpa using (List.mem_filter.mp hintr2).2
    have hmm := (syncPass3_mem fs trackedById stMid info).mp hindb1
    rcases hmm with ⟨hinMid, hrm⟩
    rcases runAddPass_mem t P { db := db, added := 0, removed := 0 } info hinMid with
      hindb | ⟨o, ho, hor⟩
    · by_cases hcc : (info.filePath != "" && !(fs.pathExists info.filePath)) = true
      · exfalso
        have hintr : info ∈ tracked := List.mem_filter.mpr ⟨hindb, by simp [hplat]⟩
        rcases (dedupByRomId_hasRom tracked info.romId).mpr ⟨info, hintr, rfl⟩ with
          ⟨x, hx, hxid⟩
        have hxdb : x ∈ db := (List.mem_filter.mp (dedupByRomId_subset tracked x hx)).1
        have hxi : x = info := nodup_romId_inj db hnodup x hxdb info hindb hxid
        exact hrm info (hxi ▸ hx) hcc rfl
      · cases hv : (info.filePath != "" && !(fs.pathExists info.filePath))
        · rfl
        · exact absurd hv hcc
    · have hg := (hgood o ho info hor).2
      simp [hg]
  have hpass3id := syncPass3_id fs trackedById2 hB2 { db := db1, added := 0, removed := 0 }
  rw [hrun2, hid2, hpass3id]
  exact ⟨rfl, rfl⟩

/-- Witness for C7 (amended): the counterexample scenario with the stale
record repaired (its recorded path exists), on which the second Sync run
returns zero added and zero removed. -/
theorem C7_amended_witness :
    (sync_downloads_with_filesystem 7
      [{ id := 42, fsName := "game.bin", name := "Game", platformId := 7, fsSizeBytes := 100 }]
      { romFolder := "/roms", autoExtract := false, installPaths := [] }
      { dirs := [("/roms", [{ name := "game.bin", isDir := false, size := 100 }])],
        existing := ["/roms", "/roms/game.bin"] }
      (sync_downloads_with_filesystem 7
        [{ id := 42, fsName := "game.bin", name := "Game", platformId := 7,
           fsSizeBytes := 100 }]
        { romFolder := "/roms", autoExtract := false, installPaths := [] }
        { dirs := [("/roms", [{ name := "game.bin", isDir := false, size := 100 }])],
          existing := ["/roms", "/roms/game.bin"] }
        [{ romId := 42, romName := "Game", filename := "game.bin",
           filePath := "/roms/game.bin", platformId := 7, fileSize := 100 }]).db).added = 0 ∧
    (sync_downloads_with_filesystem 7
      [{ id := 42, fsName := "game.bin", name := "Game", platformId := 7, fsSizeBytes := 100 }]
      { romFolder := "/roms", autoExtract := false, installPaths := [] }
      { dirs := [("/roms", [{ name := "game.bin", isDir := false, size := 100 }])],
        existing := ["/roms", "/roms/game.bin"] }
      (sync_downloads_with_filesystem 7
        [{ id := 42, fsName := "game.bin", name := "Game", platformId := 7,
           fsSizeBytes := 100 }]
        { romFolder := "/roms", autoExtract := false, installPaths := [] }
        { dirs := [("/roms", [{ name := "game.bin", isDir := false, size := 100 }])],
          existing := ["/roms", "/roms/game.bin"] }
        [{ romId := 42, romName := "Game", filename := "game.bin",
           filePath := "/roms/game.bin", platformId := 7, fileSize := 100 }]).db).removed
      = 0 :=
  C7_amended_sync_idempotent_unless_stale_matched 7
    [{ id := 42, fsName := "game.bin", name := "Game", platformId := 7, fsSizeBytes := 100 }]
    { romFolder := "/roms", autoExtract := false, installPaths := [] }
    { dirs := [("/roms", [{ name := "game.bin", isDir := false, size := 100 }])],
      existing := ["/roms", "/roms/game.bin"] }
    [{ romId := 42, romName := "Game", filename := "game.bin",
       filePath := "/roms/game.bin", platformId := 7, fileSize := 100 }]
    (by decide) (by decide) (by decide)
